import Mathlib

/-!
Contract lifecycle manager and message-dispatch bridge (x/wasm keeper).

A shallow embedding of `x/wasm/internal/keeper/connector.go` and
`x/wasm/internal/keeper/contract.go`, and of the broadcast handler of
`x/auth/client/rest/broadcast.go` (namespace `rest`).

* Go values are Lean structures; `sdk.Error` is `Option sdk.Error` (`nil` is `none`).
* The mutable world reached through `sdk.Context` is passed explicitly as `keeper.Ctx`
  (account/bank state, the module's key-value store, the gas meter).
* `keeper.State` pairs the context with a ghost `trace` recording every call the keeper
  makes to a collaborator (transfer handler, bank keeper, VM, gas meter) and every
  dispatched message, so that "is never invoked" and "exactly once" are statements
  about the trace.
* Collaborators that live outside the repository (bech32 decoding, integer parsing,
  the message router, the bank and account keepers, the VM) are fields of
  `keeper.Keeper`; every theorem quantifies over them.
* `dispatchMessage` and `ExecuteContract` call each other without any depth limit in
  the source.  The bodies are written with the nested call as a parameter
  (`dispatchMessageWith`, `ExecuteContractWith`) and closed with a bound `fuel` on the
  nesting depth of contract calls (`nestedExecute`).  Nothing but the nested call
  consumes fuel, so a call that does not re-enter `ExecuteContract` returns for every
  bound, zero included.
* The module's store is typed: records are kept decoded (the panics of
  `MustUnmarshalBinaryBare` on malformed bytes do not arise) and the key prefixes are
  taken to be disjoint.  Handlers and the bank keeper are taken to return (they do not
  panic).
* Gas charged by the store itself (the SDK wraps the store of a context so that every
  read and write is charged to the context's gas meter) is modelled on the query path,
  where the VM's budget is computed from the fresh meter after the reads of
  `getContractDetails` were charged to it (`getContractDetailsMetered`, `runOps`).  On
  the execute and instantiate paths it is left out: there the meter changes only
  through `consumeGas`.
* The VM is handed the store view of one contract on every entrypoint (init, execute,
  query): the keeper passes the same prefixed store on all three paths.  On init and
  execute the VM returns the view as it left it; on query it returns the accesses it
  makes to the view, in order, so that each can be charged.
* Unsigned 64-bit arithmetic is arithmetic on naturals modulo `2^64`.
-/

/-- Raw bytes (`[]byte`); a byte is a natural number. -/
abbrev Bytes := List Nat

/-- The 64-bit modulus, `2^64`. -/
def uint64Size : Nat := 18446744073709551616

namespace sdk

/-- The type `sdk.AccAddress`: a byte slice. -/
abbrev AccAddress := List Nat

/-- The method `AccAddress.Equals`: two addresses are equal when their bytes are. -/
def AccAddress.Equals (a b : AccAddress) : Bool := decide (a = b)

/-- The type `sdk.Coin`: a denomination and a (signed, arbitrary precision) `sdk.Int`. -/
structure Coin where
  Denom : String
  Amount : Int
deriving DecidableEq, Repr

/-- The type `sdk.Coins`. -/
abbrev Coins := List Coin

/-- The values of `sdk.Error` the keeper builds or passes on.  The constructors stand for
calls of `sdk.ErrInternal`, `sdk.ErrInvalidAddress`, `sdk.ErrInvalidCoins`,
`sdk.ErrUnauthorized`, `sdk.ErrUnknownRequest` and the module's own `types.ErrNotFound`,
`types.ErrExecuteFailed`, `types.ErrAccountExists`, `types.ErrInstantiateFailed`,
`types.ErrCreateFailed`, and hold the argument of the call; `External` is an error
produced by a collaborator (the bank keeper); `sdkError` is the error value with a
codespace, a code and a message that the function `sdk.NewError` builds (see
`keeper.NewError` for the message it gets). -/
inductive Error where
  | ErrInternal (msg : String)
  | ErrInvalidAddress (msg : String)
  | ErrInvalidCoins (msg : String)
  | ErrUnauthorized (msg : String)
  | ErrUnknownRequest (msg : String)
  | sdkError (codespace : String) (code : Nat) (msg : String)
  | ErrNotFound (msg : String)
  | ErrExecuteFailed (cause : String)
  | External (codespace : String) (code : Nat) (log : String)
  | ErrAccountExists (addr : AccAddress)
  | ErrInstantiateFailed (cause : String)
  | ErrCreateFailed (cause : String)
deriving DecidableEq, Repr

/-- The type `sdk.Result`, as far as `handleSdkMessage` reads it. -/
structure Result where
  Codespace : String
  Code : Nat
  Log : String
deriving DecidableEq, Repr

/-- The method `Result.IsOK`: the code is `CodeOK`, which is zero. -/
def Result.IsOK (res : Result) : Bool := res.Code == 0

/-- The basic gas meter of the ledger: a limit and the gas consumed so far. -/
structure GasMeter where
  limit : Nat
  consumed : Nat
deriving DecidableEq, Repr

end sdk

namespace wasmTypes

/-- The type `wasmTypes.Coin`: the amount is a string the contract wrote. -/
structure Coin where
  Denom : String
  Amount : String
deriving DecidableEq, Repr

/-- The type `wasmTypes.SendMsg`. -/
structure SendMsg where
  FromAddress : String
  ToAddress : String
  Amount : List Coin
deriving DecidableEq, Repr

/-- The type `wasmTypes.ContractMsg`. -/
structure ContractMsg where
  ContractAddr : String
  Msg : Bytes
  Send : List Coin
deriving DecidableEq, Repr

/-- The type `wasmTypes.OpaqueMsg`. -/
structure OpaqueMsg where
  Data : String
deriving DecidableEq, Repr

/-- The type `wasmTypes.CosmosMsg`: one field per variant, each possibly left at its zero
value. -/
structure CosmosMsg where
  Send : SendMsg
  Contract : ContractMsg
  Opaque : OpaqueMsg
deriving DecidableEq, Repr

/-- The type `wasmTypes.Result`, as far as the keeper reads it. -/
structure Result where
  GasUsed : Nat
  Messages : List CosmosMsg
deriving DecidableEq, Repr

end wasmTypes

namespace bank

/-- The type `bank.MsgSend`. -/
structure MsgSend where
  FromAddress : sdk.AccAddress
  ToAddress : sdk.AccAddress
  Amount : sdk.Coins
deriving DecidableEq, Repr

/-- The method `MsgSend.Route`: the bank module's route. -/
def MsgSend.Route (_ : MsgSend) : String := "bank"

/-- The method `MsgSend.GetSigners`: the sender alone. -/
def MsgSend.GetSigners (msg : MsgSend) : List sdk.AccAddress := [msg.FromAddress]

end bank

namespace exported

/-- The interface `exported.Account`, as far as the keeper reads it. -/
structure Account where
  Address : sdk.AccAddress
  Coins : sdk.Coins
deriving DecidableEq, Repr

/-- The method `Account.GetAddress`. -/
def Account.GetAddress (a : Account) : sdk.AccAddress := a.Address

end exported

namespace types

/-- The type `types.CodeInfo`. -/
structure CodeInfo where
  CodeHash : Bytes
  Creator : sdk.AccAddress
deriving DecidableEq, Repr

/-- The type `types.ContractInfo`. -/
structure ContractInfo where
  CodeID : Nat
  Address : sdk.AccAddress
  Creator : sdk.AccAddress
  InitMsg : Bytes
deriving DecidableEq, Repr

/-- Modelled from the spec: `types.NewCodeInfo` is not among the sources; the spec gives a
code record the content hash and the uploader. -/
def NewCodeInfo (codeHash : Bytes) (creator : sdk.AccAddress) : CodeInfo :=
  ⟨codeHash, creator⟩

/-- Modelled from the spec: `types.NewContractInfo` is not among the sources; the spec
gives a contract record the code id, the contract address, the creator and the init
payload, and the genesis test passes them in this order. -/
def NewContractInfo (codeID : Nat) (address creator : sdk.AccAddress) (initMsg : Bytes) :
    ContractInfo :=
  ⟨codeID, address, creator, initMsg⟩

/-- Modelled from the spec: `types.NewWasmAPIParams` is not among the sources; the spec
describes the invocation parameters as the bundle of caller address, attached funds and
the contract's own account view. -/
structure WasmAPIParams where
  caller : sdk.AccAddress
  coins : sdk.Coins
  contractAccount : Option exported.Account
deriving DecidableEq, Repr

/-- Modelled from the spec: see `WasmAPIParams`. -/
def NewWasmAPIParams (caller : sdk.AccAddress) (coins : sdk.Coins)
    (contractAccount : Option exported.Account) : WasmAPIParams :=
  ⟨caller, coins, contractAccount⟩

end types

namespace keeper

/-- A key-value store with byte-string keys and values. -/
abbrev KVStore := List (Bytes × Bytes)

/-- The state of the account and bank modules: the accounts with their balances. -/
abbrev Bank := List exported.Account

/-- The module's store, read through its key constructors: the two id counters
(`LastCodeIDKey`, `LastInstanceIDKey`), the code records (`GetCodeInfoKey`), the contract
records (`GetContractInfoKey`) and the private region of each contract
(`GetContractStoreKey`). -/
structure WasmStore where
  lastCodeID : Option Nat
  lastInstanceID : Option Nat
  codeInfo : List (Nat × types.CodeInfo)
  contractInfo : List (sdk.AccAddress × types.ContractInfo)
  contractStore : List (sdk.AccAddress × KVStore)
deriving DecidableEq, Repr

/-- The world reached through `sdk.Context`. -/
structure Ctx where
  bank : Bank
  store : WasmStore
  gas : sdk.GasMeter
deriving DecidableEq, Repr

/-- One call made by the keeper, recorded in the ghost trace. -/
inductive Event where
  | dispatch (contract : Option exported.Account) (msg : wasmTypes.CosmosMsg)
  | handler (route : String) (msg : bank.MsgSend)
  | executeContract (target caller : sdk.AccAddress) (coins : sdk.Coins) (msg : Bytes)
  | sendCoins (sender recipient : sdk.AccAddress) (coins : sdk.Coins)
  | wasmerExecute (codeHash : Bytes) (params : types.WasmAPIParams) (msg : Bytes) (gas : Nat)
  | consumeGas (amount : Nat)
  | wasmerInstantiate (codeHash : Bytes) (params : types.WasmAPIParams) (msg : Bytes)
      (gas : Nat)
  | wasmerQuery (codeHash : Bytes) (key : Bytes) (gas : Nat)
  | wasmerCreate (wasmCode : Bytes)
deriving DecidableEq, Repr

/-- The context together with the ghost trace of calls made so far. -/
structure State where
  ctx : Ctx
  trace : List Event
deriving DecidableEq, Repr

/-- Append one event to the trace. -/
def State.log (s : State) (e : Event) : State :=
  { ctx := s.ctx, trace := s.trace ++ [e] }

/-- A Go run-time panic. -/
inductive Panic where
  | nilAccount
  | divideByZero
  | gasOverflow
  | outOfGas
deriving DecidableEq, Repr

/-- How a keeper call ends: it returns a value in a state, it panics, or the bound on the
nesting depth of contract calls was reached. -/
inductive Res (α : Type) where
  | ret (s : State) (a : α)
  | panic (s : State) (p : Panic)
  | outOfFuel
deriving DecidableEq, Repr

/-- A registered message handler: `h(ctx, msg)`. -/
abbrev Handler := bank.MsgSend → Ctx → Ctx × sdk.Result

/-- The signature of `Keeper.ExecuteContract`. -/
abbrev Exec :=
  sdk.AccAddress → sdk.AccAddress → sdk.Coins → Bytes → State → Res (Option sdk.Error)

/-- One access of the VM to the store view it is handed: `Get`, `Set` or `Delete`. -/
inductive StoreOp where
  | Get (key : Bytes)
  | Set (key value : Bytes)
  | Delete (key : Bytes)
deriving DecidableEq, Repr

/-- The keeper with its collaborators. -/
structure Keeper where
  /-- The function `sdk.AccAddressFromBech32`; `none` is a decoding error. -/
  AccAddressFromBech32 : String → Option sdk.AccAddress
  /-- The function `sdk.NewIntFromString`; `none` is `ok = false`. -/
  NewIntFromString : String → Option Int
  /-- The rendering `fmt.Sprintf("%#v", msg)`. -/
  fmtGoSyntax : wasmTypes.CosmosMsg → String
  /-- The lookup `k.router.Route`; `none` is a nil handler. -/
  router : String → Option Handler
  /-- The call `k.bankKeeper.SendCoins`. -/
  SendCoins : sdk.AccAddress → sdk.AccAddress → sdk.Coins → Bank → Bank × Option sdk.Error
  /-- The call `k.accountKeeper.GetAccount`; `none` is a nil account. -/
  GetAccount : Bank → sdk.AccAddress → Option exported.Account
  /-- The call `k.wasmer.Execute`: it may write the store view it is handed, and returns
  either a result or an error (its text). -/
  wasmerExecute : Bytes → types.WasmAPIParams → Bytes → KVStore → Nat →
    KVStore × Except String wasmTypes.Result
  /-- The parameter `k.GasMultiplier(ctx)`. -/
  GasMultiplier : Nat
  /-- The parameter `k.MaxContractGas(ctx)`. -/
  MaxContractGas : Nat
  /-- The call `k.wasmer.Instantiate`: like `wasmerExecute`, for the init entrypoint. -/
  wasmerInstantiate : Bytes → types.WasmAPIParams → Bytes → KVStore → Nat →
    KVStore × Except String wasmTypes.Result
  /-- The call `k.wasmer.Query`: it is handed the store view (an interface with the write
  methods of every store).  Its first component is the sequence of accesses the VM makes
  to the view, in order; the second is what it returns when all of them went through:
  the query result with the gas used, or an error (its text). -/
  wasmerQuery : Bytes → Bytes → KVStore → Nat → List StoreOp × Except String (Bytes × Nat)
  /-- The call `k.wasmer.Create`: compiles the code and returns its hash, or an error. -/
  wasmerCreate : Bytes → Except String Bytes
  /-- Modelled from the spec: the method `k.uncompress` is not among the sources; the spec
  says it decompresses the input if compressed and may fail. -/
  uncompress : Bytes → Except String Bytes
  /-- The function `crypto.AddressHash`: the truncated hash of a byte string. -/
  AddressHash : Bytes → sdk.AccAddress
  /-- The field `k.queryGasLimit`. -/
  queryGasLimit : Nat
  /-- The call `fmt.Sprintf(format)` with no operands, for a format that contains the
  character `%`: the verbs are rewritten. -/
  SprintfVerbs : String → String
  /-- The function `sdk.CodeToDefaultMsg`: the default message of an error code. -/
  CodeToDefaultMsg : Nat → String
  /-- The length of the bytes `k.cdc.MustMarshalBinaryBare` stores for a contract
  record. -/
  contractInfoLen : types.ContractInfo → Nat
  /-- The length of the bytes `k.cdc.MustMarshalBinaryBare` stores for a code record. -/
  codeInfoLen : types.CodeInfo → Nat

/-- The call `fmt.Sprintf(format)` with no operands: a format without the character `%`
is copied as it is; in any other format the verbs are rewritten. -/
def Sprintf (k : Keeper) (format : String) : String :=
  if format.data.contains '%' then k.SprintfVerbs format else format

/-- The message an SDK error gets from the format it is built with, when there are no
operands: an empty format is replaced by the default message of the code, and the message
is the format as `fmt.Sprintf` prints it. -/
def formatMessage (k : Keeper) (code : Nat) (format : String) : String :=
  Sprintf k (if format = "" then k.CodeToDefaultMsg code else format)

/-- The function `sdk.NewError(codespace, code, format)`, called with no operands. -/
def NewError (k : Keeper) (codespace : String) (code : Nat) (format : String) : sdk.Error :=
  sdk.Error.sdkError codespace code (formatMessage k code format)

/-! ## connector.go -/

/-- The loop of `parseToCoins`, with the coins accumulated so far. -/
def parseToCoinsLoop (k : Keeper) : List wasmTypes.Coin → sdk.Coins → sdk.Coins × Option sdk.Error
  | [], coins => (coins, none)
  | coin :: rest, coins =>
    match k.NewIntFromString coin.Amount with
    | none => (coins, some (sdk.Error.ErrInvalidCoins ("Failed to parse " ++ coin.Amount)))
    | some amount => parseToCoinsLoop k rest (coins ++ [{ Denom := coin.Denom, Amount := amount }])

/-- The function `parseToCoins`: both named results are returned. -/
def parseToCoins (k : Keeper) (wasmCoins : List wasmTypes.Coin) : sdk.Coins × Option sdk.Error :=
  parseToCoinsLoop k wasmCoins []

/-- The function `parseToMsgSend`. -/
def parseToMsgSend (k : Keeper) (wasmMsg : wasmTypes.SendMsg) : Except sdk.Error bank.MsgSend :=
  match k.AccAddressFromBech32 wasmMsg.FromAddress with
  | none => .error (sdk.Error.ErrInvalidAddress wasmMsg.FromAddress)
  | some fromAddr =>
    match k.AccAddressFromBech32 wasmMsg.ToAddress with
    | none => .error (sdk.Error.ErrInvalidAddress wasmMsg.ToAddress)
    | some toAddr =>
      match parseToCoins k wasmMsg.Amount with
      | (_, some err) => .error err
      | (coins, none) => .ok { FromAddress := fromAddr, ToAddress := toAddr, Amount := coins }

/-- The argument type of `isEmpty`: an interface value holding a `SendMsg`, a
`ContractMsg`, or anything else. -/
inductive msgWrapper where
  | SendMsg (m : wasmTypes.SendMsg)
  | ContractMsg (m : wasmTypes.ContractMsg)
  | other
deriving DecidableEq, Repr

/-- The function `isEmpty`: a type switch over the wrapped message. -/
def isEmpty : msgWrapper → Bool
  | .SendMsg m => m.FromAddress.length == 0 && m.ToAddress.length == 0 && m.Amount.length == 0
  | .ContractMsg m => m.ContractAddr.length == 0 && m.Msg.length == 0 && m.Send.length == 0
  | .other => true

/-- The signer check of `handleSdkMessage`: `some err` when the loop returns early. -/
def checkSigners (contractAddr : sdk.AccAddress) : List sdk.AccAddress → Option sdk.Error
  | [] => none
  | acct :: rest =>
    if !acct.Equals contractAddr then
      some (sdk.Error.ErrUnauthorized "contract doesn't have permission")
    else checkSigners contractAddr rest

/-- The method `handleSdkMessage`. -/
def handleSdkMessage (k : Keeper) (contract : Option exported.Account) (msg : bank.MsgSend)
    (s : State) : Res (Option sdk.Error) :=
  match contract with
  | none => .panic s .nilAccount
  | some acc =>
    let contractAddr := acc.GetAddress
    match checkSigners contractAddr msg.GetSigners with
    | some err => .ret s (some err)
    | none =>
      match k.router msg.Route with
      | none => .ret s (some (sdk.Error.ErrUnknownRequest msg.Route))
      | some h =>
        let out := h msg s.ctx
        let s1 : State := { ctx := out.1, trace := s.trace ++ [Event.handler msg.Route msg] }
        if !out.2.IsOK then
          .ret s1 (some (NewError k out.2.Codespace out.2.Code out.2.Log))
        else .ret s1 none

/-- The last two statements of `dispatchMessage`, reached when no earlier branch
returned. -/
def dispatchTail (k : Keeper) (msg : wasmTypes.CosmosMsg) (s : State) : Res (Option sdk.Error) :=
  if msg.Opaque.Data != "" then
    .ret s (some (sdk.Error.ErrInternal "dispatch opaque message not yet implemented"))
  else
    .ret s (some (sdk.Error.ErrInternal ("Unknown Msg: " ++ k.fmtGoSyntax msg)))

/-- The method `dispatchMessage`, with `k.ExecuteContract` as the parameter `exec`. -/
def dispatchMessageWith (k : Keeper) (exec : Exec) (contract : Option exported.Account)
    (msg : wasmTypes.CosmosMsg) (s0 : State) : Res (Option sdk.Error) :=
  let s := s0.log (Event.dispatch contract msg)
  if !isEmpty (.SendMsg msg.Send) && !isEmpty (.ContractMsg msg.Contract) then
    .ret s (some (sdk.Error.ErrInternal "single msg cannot contain multiple msgs"))
  else if !isEmpty (.SendMsg msg.Send) then
    match parseToMsgSend k msg.Send with
    | .error err => .ret s (some err)
    | .ok sendMsg => handleSdkMessage k contract sendMsg s
  else if !isEmpty (.ContractMsg msg.Contract) then
    match k.AccAddressFromBech32 msg.Contract.ContractAddr with
    | none => .ret s (some (sdk.Error.ErrInvalidAddress msg.Contract.ContractAddr))
    | some targetAddr =>
      match parseToCoins k msg.Contract.Send with
      | (_, some err) => .ret s (some err)
      | (coins, none) =>
        match contract with
        | none => .panic s .nilAccount
        | some acc =>
          match exec targetAddr acc.GetAddress coins msg.Contract.Msg
              (s.log (Event.executeContract targetAddr acc.GetAddress coins msg.Contract.Msg)) with
          | .ret s1 (some err) => .ret s1 (some err)
          | .ret s1 none => dispatchTail k msg s1
          | .panic s1 p => .panic s1 p
          | .outOfFuel => .outOfFuel
  else dispatchTail k msg s

/-- The method `dispatchMessages`, with `k.ExecuteContract` as the parameter `exec`. -/
def dispatchMessagesWith (k : Keeper) (exec : Exec) (contract : Option exported.Account) :
    List wasmTypes.CosmosMsg → State → Res (Option sdk.Error)
  | [], s => .ret s none
  | msg :: msgs, s =>
    match dispatchMessageWith k exec contract msg s with
    | .ret s1 (some err) => .ret s1 (some err)
    | .ret s1 none => dispatchMessagesWith k exec contract msgs s1
    | .panic s1 p => .panic s1 p
    | .outOfFuel => .outOfFuel

/-! ## contract.go -/

/-- The view `prefix.NewStore(ctx.KVStore(k.storeKey), GetContractStoreKey(addr))`: the
private region of one contract. -/
def contractStoreView (st : WasmStore) (contractAddress : sdk.AccAddress) : KVStore :=
  (st.contractStore.lookup contractAddress).getD []

/-- What the store holds after the private region of one contract was written through
its view. -/
def writeContractStore (st : WasmStore) (contractAddress : sdk.AccAddress) (kv : KVStore) :
    WasmStore :=
  { st with
    contractStore :=
      (contractAddress, kv) :: st.contractStore.filter (fun p => p.1 != contractAddress) }

/-- The method `getContractDetails`. -/
def getContractDetails (ctx : Ctx) (contractAddress : sdk.AccAddress) :
    Except sdk.Error (types.CodeInfo × KVStore) :=
  match ctx.store.contractInfo.lookup contractAddress with
  | none => .error (sdk.Error.ErrNotFound "contract")
  | some contractInfo =>
    match ctx.store.codeInfo.lookup contractInfo.CodeID with
    | none => .error (sdk.Error.ErrNotFound "contract info")
    | some codeInfo => .ok (codeInfo, contractStoreView ctx.store contractAddress)

/-- The method `gasForContract`, in 64-bit unsigned arithmetic. -/
def gasForContract (k : Keeper) (ctx : Ctx) : Nat :=
  let remaining :=
    ((ctx.gas.limit + uint64Size - ctx.gas.consumed) % uint64Size * k.GasMultiplier) % uint64Size
  if remaining > k.MaxContractGas then k.MaxContractGas else remaining

/-- The method `ConsumeGas` of the basic gas meter: it panics when the sum overflows 64
bits and when the consumed gas exceeds the limit. -/
def ConsumeGas (g : sdk.GasMeter) (amount : Nat) : sdk.GasMeter × Option Panic :=
  if uint64Size - 1 - g.consumed < amount then
    ({ g with consumed := 0 }, some .gasOverflow)
  else if g.consumed + amount > g.limit then
    ({ g with consumed := g.consumed + amount }, some .outOfGas)
  else ({ g with consumed := g.consumed + amount }, none)

/-- The method `consumeGas`: converts contract gas usage to sdk gas and consumes it. -/
def consumeGas (k : Keeper) (gas : Nat) (s : State) : Res Unit :=
  if k.GasMultiplier = 0 then .panic s .divideByZero
  else
    let consumed := gas / k.GasMultiplier
    let out := ConsumeGas s.ctx.gas consumed
    let s1 : State :=
      { ctx := { s.ctx with gas := out.1 }, trace := s.trace ++ [Event.consumeGas consumed] }
    match out.2 with
    | some p => .panic s1 p
    | none => .ret s1 ()

/-- The method `ExecuteContract`, with the nested `k.ExecuteContract` reached through
dispatch as the parameter `exec`. -/
def ExecuteContractWith (k : Keeper) (exec : Exec) (contractAddress caller : sdk.AccAddress)
    (coins : sdk.Coins) (msg : Bytes) (s : State) : Res (Option sdk.Error) :=
  match getContractDetails s.ctx contractAddress with
  | .error sdkerr => .ret s (some sdkerr)
  | .ok (codeInfo, storePrefix) =>
    let sent := k.SendCoins caller contractAddress coins s.ctx.bank
    let s1 : State :=
      { ctx := { s.ctx with bank := sent.1 },
        trace := s.trace ++ [Event.sendCoins caller contractAddress coins] }
    match sent.2 with
    | some sdkerr => .ret s1 (some sdkerr)
    | none =>
      let contractAccount := k.GetAccount s1.ctx.bank contractAddress
      let params := types.NewWasmAPIParams caller coins contractAccount
      let gas := gasForContract k s1.ctx
      let ran := k.wasmerExecute codeInfo.CodeHash params msg storePrefix gas
      let s2 : State :=
        { ctx := { s1.ctx with store := writeContractStore s1.ctx.store contractAddress ran.1 },
          trace := s1.trace ++ [Event.wasmerExecute codeInfo.CodeHash params msg gas] }
      match ran.2 with
      | .error err => .ret s2 (some (sdk.Error.ErrExecuteFailed err))
      | .ok res =>
        match consumeGas k res.GasUsed s2 with
        | .panic s3 p => .panic s3 p
        | .outOfFuel => .outOfFuel
        | .ret s3 _ => dispatchMessagesWith k exec contractAccount res.Messages s3

/-- The nested `k.ExecuteContract` that dispatch re-enters, with at most `fuel` further
levels of nesting below the current call. -/
def nestedExecute (k : Keeper) : Nat → Exec
  | 0 => fun _ _ _ _ _ => .outOfFuel
  | fuel + 1 => ExecuteContractWith k (nestedExecute k fuel)

/-- The method `Keeper.ExecuteContract`; nested contract calls may go `fuel` levels deep. -/
def ExecuteContract (k : Keeper) (fuel : Nat) : Exec :=
  ExecuteContractWith k (nestedExecute k fuel)

/-- The method `Keeper.dispatchMessage`; the contract calls it triggers may nest `fuel`
levels deep. -/
def dispatchMessage (k : Keeper) (fuel : Nat) (contract : Option exported.Account)
    (msg : wasmTypes.CosmosMsg) (s : State) : Res (Option sdk.Error) :=
  dispatchMessageWith k (nestedExecute k fuel) contract msg s

/-- The method `Keeper.dispatchMessages`; the contract calls it triggers may nest `fuel`
levels deep. -/
def dispatchMessages (k : Keeper) (fuel : Nat) (contract : Option exported.Account)
    (msgs : List wasmTypes.CosmosMsg) (s : State) : Res (Option sdk.Error) :=
  dispatchMessagesWith k (nestedExecute k fuel) contract msgs s

/-- Modelled from the spec: the method `SetCodeInfo` is not among the sources; the spec
says the code record is persisted keyed by its code id. -/
def SetCodeInfo (st : WasmStore) (codeID : Nat) (info : types.CodeInfo) : WasmStore :=
  { st with codeInfo := (codeID, info) :: st.codeInfo.filter (fun p => p.1 != codeID) }

/-- Modelled from the spec: the method `SetContractInfo` is not among the sources; the
spec says the contract record is persisted under the contract address. -/
def SetContractInfo (st : WasmStore) (contractAddress : sdk.AccAddress)
    (info : types.ContractInfo) : WasmStore :=
  { st with
    contractInfo :=
      (contractAddress, info) :: st.contractInfo.filter (fun p => p.1 != contractAddress) }

/-- The method `increaseLastCodeID`: the id handed out is the stored one, or 1 when none
is stored; the next one is stored, in 64-bit unsigned arithmetic. -/
def increaseLastCodeID (st : WasmStore) : WasmStore × Nat :=
  let id := st.lastCodeID.getD 1
  ({ st with lastCodeID := some ((id + 1) % uint64Size) }, id)

/-- The method `increaseLastInstanceID`. -/
def increaseLastInstanceID (st : WasmStore) : WasmStore × Nat :=
  let id := st.lastInstanceID.getD 1
  ({ st with lastInstanceID := some ((id + 1) % uint64Size) }, id)

/-- The method `StoreCode`: the state it leaves, the code id and the error. -/
def StoreCode (k : Keeper) (creator : sdk.AccAddress) (wasmCode : Bytes) (s : State) :
    State × (Nat × Option sdk.Error) :=
  match k.uncompress wasmCode with
  | .error err => (s, (0, some (sdk.Error.ErrCreateFailed err)))
  | .ok wasmCode =>
    match k.wasmerCreate wasmCode with
    | .error err =>
      ({ ctx := s.ctx, trace := s.trace ++ [Event.wasmerCreate wasmCode] },
        (0, some (sdk.Error.ErrCreateFailed err)))
    | .ok codeHash =>
      let inc := increaseLastCodeID s.ctx.store
      let codeID := inc.2
      let contractInfo := types.NewCodeInfo codeHash creator
      ({ ctx := { s.ctx with store := SetCodeInfo inc.1 codeID contractInfo },
         trace := s.trace ++ [Event.wasmerCreate wasmCode] }, (codeID, none))

/-- The loop of `binary.PutUvarint`; at most `steps` bytes with the continuation bit are
written before the last byte. -/
def uvarintLoop : Nat → Nat → List Nat
  | 0, x => [x % 256]
  | steps + 1, x =>
    if x ≥ 128 then (x % 128 + 128) :: uvarintLoop steps (x / 128) else [x]

/-- The bytes `binary.PutUvarint` writes for a 64-bit value: nine bytes with the
continuation bit at most, then the last byte. -/
def PutUvarint (x : Nat) : List Nat := uvarintLoop 9 x

/-- The 20-byte buffer `addrFromUint64` hashes: the letter C, the uvarint of the id, and
zeros. -/
def addrBuffer (id : Nat) : Bytes :=
  67 :: (PutUvarint id ++ List.replicate (19 - (PutUvarint id).length) 0)

/-- The function `addrFromUint64`. -/
def addrFromUint64 (k : Keeper) (id : Nat) : sdk.AccAddress :=
  k.AddressHash (addrBuffer id)

/-- The expression `codeID<<32 + instanceID`, in 64-bit unsigned arithmetic. -/
def contractID (codeID instanceID : Nat) : Nat :=
  ((codeID * 4294967296) % uint64Size + instanceID) % uint64Size

/-- The method `generateContractAddress`: generates a contract address from codeID +
instanceID and increases last instanceID. -/
def generateContractAddress (k : Keeper) (st : WasmStore) (codeID : Nat) :
    WasmStore × sdk.AccAddress :=
  let inc := increaseLastInstanceID st
  let instanceID := inc.2
  (inc.1, addrFromUint64 k (contractID codeID instanceID))

/-- The method `InstantiateContract`, with the nested `k.ExecuteContract` reached through
dispatch as the parameter `exec`.  The address is a named result: it is returned with
every error. -/
def InstantiateContractWith (k : Keeper) (exec : Exec) (creator : sdk.AccAddress) (codeID : Nat)
    (initMsg : Bytes) (deposit : sdk.Coins) (s : State) :
    Res (sdk.AccAddress × Option sdk.Error) :=
  let gen := generateContractAddress k s.ctx.store codeID
  let contractAddress := gen.2
  let s0 : State := { ctx := { s.ctx with store := gen.1 }, trace := s.trace }
  match k.GetAccount s0.ctx.bank contractAddress with
  | some existingAccnt =>
    .ret s0 (contractAddress, some (sdk.Error.ErrAccountExists existingAccnt.GetAddress))
  | none =>
    let sent := k.SendCoins creator contractAddress deposit s0.ctx.bank
    let s1 : State :=
      { ctx := { s0.ctx with bank := sent.1 },
        trace := s0.trace ++ [Event.sendCoins creator contractAddress deposit] }
    match sent.2 with
    | some err => .ret s1 (contractAddress, some err)
    | none =>
      let contractAccount := k.GetAccount s1.ctx.bank contractAddress
      match s1.ctx.store.codeInfo.lookup codeID with
      | none => .ret s1 (contractAddress, some (sdk.Error.ErrNotFound "contract"))
      | some codeInfo =>
        let params := types.NewWasmAPIParams creator deposit contractAccount
        let contractStore := contractStoreView s1.ctx.store contractAddress
        let gas := gasForContract k s1.ctx
        let ran := k.wasmerInstantiate codeInfo.CodeHash params initMsg contractStore gas
        let s2 : State :=
          { ctx := { s1.ctx with store := writeContractStore s1.ctx.store contractAddress ran.1 },
            trace := s1.trace ++ [Event.wasmerInstantiate codeInfo.CodeHash params initMsg gas] }
        match ran.2 with
        | .error err2 => .ret s2 (contractAddress, some (sdk.Error.ErrInstantiateFailed err2))
        | .ok res =>
          match consumeGas k res.GasUsed s2 with
          | .panic s3 p => .panic s3 p
          | .outOfFuel => .outOfFuel
          | .ret s3 _ =>
            match dispatchMessagesWith k exec contractAccount res.Messages s3 with
            | .ret s4 (some err) => .ret s4 (contractAddress, some err)
            | .panic s4 p => .panic s4 p
            | .outOfFuel => .outOfFuel
            | .ret s4 none =>
              let contractInfo := types.NewContractInfo codeID contractAddress creator initMsg
              .ret
                { ctx :=
                    { s4.ctx with
                      store := SetContractInfo s4.ctx.store contractAddress contractInfo },
                  trace := s4.trace }
                (contractAddress, none)

/-- The method `Keeper.InstantiateContract`; the contract calls it triggers through
dispatch may nest `fuel` levels deep. -/
def InstantiateContract (k : Keeper) (fuel : Nat) (creator : sdk.AccAddress) (codeID : Nat)
    (initMsg : Bytes) (deposit : sdk.Coins) (s : State) :
    Res (sdk.AccAddress × Option sdk.Error) :=
  InstantiateContractWith k (nestedExecute k fuel) creator codeID initMsg deposit s

/-- The flat cost of a read of the store (`KVGasConfig().ReadCostFlat`). -/
def ReadCostFlat : Nat := 1000

/-- The cost of a read per byte of the value found (`KVGasConfig().ReadCostPerByte`). -/
def ReadCostPerByte : Nat := 3

/-- The flat cost of a write to the store (`KVGasConfig().WriteCostFlat`). -/
def WriteCostFlat : Nat := 2000

/-- The cost of a write per byte of the value written (`KVGasConfig().WriteCostPerByte`). -/
def WriteCostPerByte : Nat := 30

/-- The cost of a delete (`KVGasConfig().DeleteCost`). -/
def DeleteCost : Nat := 1000

/-- Two charges of the meter, one after the other; the second is not made when the first
panics. -/
def chargeTwice (meter : sdk.GasMeter) (first second : Nat) : sdk.GasMeter × Option Panic :=
  match ConsumeGas meter first with
  | (m1, some p) => (m1, some p)
  | (m1, none) => ConsumeGas m1 second

/-- The charge of the gas-metered store for one read that finds a value of `valueLen`
bytes (zero bytes when it finds nothing): the flat cost, then the cost per byte, in
64-bit unsigned arithmetic. -/
def chargeRead (meter : sdk.GasMeter) (valueLen : Nat) : sdk.GasMeter × Option Panic :=
  chargeTwice meter ReadCostFlat ((ReadCostPerByte * valueLen) % uint64Size)

/-- The outcome of `getContractDetails` on a gas-metered store: a read ran out of gas, a
record is missing, or both records were found. -/
inductive Details where
  | panicked (p : Panic)
  | failed (err : sdk.Error)
  | found (codeInfo : types.CodeInfo) (contractStorePrefix : KVStore)
deriving DecidableEq, Repr

/-- The method `getContractDetails` with the charges of the gas-metered store: each of
the two `store.Get` calls is charged to the meter of the context before its result is
looked at.  The meter is returned as the reads left it. -/
def getContractDetailsMetered (k : Keeper) (meter : sdk.GasMeter) (st : WasmStore)
    (contractAddress : sdk.AccAddress) : sdk.GasMeter × Details :=
  let bz := st.contractInfo.lookup contractAddress
  let c1 := chargeRead meter ((bz.map k.contractInfoLen).getD 0)
  match c1.2 with
  | some p => (c1.1, .panicked p)
  | none =>
    match bz with
    | none => (c1.1, .failed (sdk.Error.ErrNotFound "contract"))
    | some contractInfo =>
      let bz2 := st.codeInfo.lookup contractInfo.CodeID
      let c2 := chargeRead c1.1 ((bz2.map k.codeInfoLen).getD 0)
      match c2.2 with
      | some p => (c2.1, .panicked p)
      | none =>
        match bz2 with
        | none => (c2.1, .failed (sdk.Error.ErrNotFound "contract info"))
        | some codeInfo => (c2.1, .found codeInfo (contractStoreView st contractAddress))

/-- The gas the two reads of `getContractDetails` are charged when both records are
found: for each read the flat cost and the cost per byte of the record. -/
def detailsReadGas (k : Keeper) (contractInfo : types.ContractInfo)
    (codeInfo : types.CodeInfo) : Nat :=
  ReadCostFlat + (ReadCostPerByte * k.contractInfoLen contractInfo) % uint64Size +
    (ReadCostFlat + (ReadCostPerByte * k.codeInfoLen codeInfo) % uint64Size)

/-- One access of the VM to the gas-metered store view: a read is charged the flat cost
and the cost per byte of the value it finds; a write is charged the flat cost and the
cost per byte of the value before it is made; a delete is charged before it is made.  A
charge that panics leaves the view as it is.  (A nil value, on which `Set` panics, is not
represented.) -/
def meteredOp (meter : sdk.GasMeter) (kv : KVStore) : StoreOp →
    sdk.GasMeter × KVStore × Option Panic
  | .Get key =>
    let c := chargeRead meter ((kv.lookup key).getD []).length
    (c.1, kv, c.2)
  | .Set key value =>
    let c := chargeTwice meter WriteCostFlat ((WriteCostPerByte * value.length) % uint64Size)
    match c.2 with
    | some p => (c.1, kv, some p)
    | none => (c.1, (key, value) :: kv.filter (fun e => e.1 != key), none)
  | .Delete key =>
    let c := ConsumeGas meter DeleteCost
    match c.2 with
    | some p => (c.1, kv, some p)
    | none => (c.1, kv.filter (fun e => e.1 != key), none)

/-- The accesses of the VM to the gas-metered store view, in order, up to the first
charge that panics. -/
def runOps (meter : sdk.GasMeter) (kv : KVStore) : List StoreOp →
    sdk.GasMeter × KVStore × Option Panic
  | [] => (meter, kv, none)
  | op :: rest =>
    match meteredOp meter kv op with
    | (m1, kv1, some p) => (m1, kv1, some p)
    | (m1, kv1, none) => runOps m1 kv1 rest

/-- The method `queryToContract`.  The context it works on is the caller's with a fresh
gas meter of limit `k.queryGasLimit`; that context is local, so the state returned keeps
the caller's meter.  The store is shared with the caller's context, and its reads and
writes are charged to the fresh meter: first the two reads of `getContractDetails`, then
(the budget being computed in between) the accesses of the VM, then the gas the VM
reports. -/
def queryToContract (k : Keeper) (contractAddr : sdk.AccAddress) (key : Bytes) (s : State) :
    Res (Except sdk.Error Bytes) :=
  match getContractDetailsMetered k { limit := k.queryGasLimit, consumed := 0 } s.ctx.store
      contractAddr with
  | (_, .panicked p) => .panic s p
  | (_, .failed err) => .ret s (.error err)
  | (meter1, .found codeInfo contractStorePrefix) =>
    let gas := gasForContract k { s.ctx with gas := meter1 }
    let ran := k.wasmerQuery codeInfo.CodeHash key contractStorePrefix gas
    let run := runOps meter1 contractStorePrefix ran.1
    let q1 : State :=
      { ctx :=
          { bank := s.ctx.bank
            store := writeContractStore s.ctx.store contractAddr run.2.1
            gas := run.1 },
        trace := s.trace ++ [Event.wasmerQuery codeInfo.CodeHash key gas] }
    match run.2.2 with
    | some p => .panic { ctx := { q1.ctx with gas := s.ctx.gas }, trace := q1.trace } p
    | none =>
      match ran.2 with
      | .error qErr =>
        .ret { ctx := { q1.ctx with gas := s.ctx.gas }, trace := q1.trace }
          (.error (sdk.Error.ErrInternal qErr))
      | .ok (queryResult, gasUsed) =>
        match consumeGas k gasUsed q1 with
        | .panic q2 p => .panic { ctx := { q2.ctx with gas := s.ctx.gas }, trace := q2.trace } p
        | .outOfFuel => .outOfFuel
        | .ret q2 _ =>
          .ret { ctx := { q2.ctx with gas := s.ctx.gas }, trace := q2.trace } (.ok queryResult)

/-! ## Sequences of calls and frame conditions -/

/-- The results of a sequence of `StoreCode` calls made one after the other: the code id
and the error of each call. -/
def storeCodeSeq (k : Keeper) : List (sdk.AccAddress × Bytes) → State →
    List (Nat × Option sdk.Error)
  | [], _ => []
  | call :: rest, s =>
    (StoreCode k call.1 call.2 s).2 :: storeCodeSeq k rest (StoreCode k call.1 call.2 s).1

/-- What decompression followed by compilation makes of an upload: the hash of the code,
or the cause of the failure. -/
def compileCode (k : Keeper) (wasmCode : Bytes) : Except String Bytes :=
  match k.uncompress wasmCode with
  | .error cause => .error cause
  | .ok code => k.wasmerCreate code

/-- The results the specification gives a sequence of uploads, stated without
`StoreCode`: an upload that fails to decompress or compile gets code id 0 and
`CreateFailed` and does not use up an id; the others get the ids `next`, `next + 1`, ...
in order. -/
def storeCodeSpec (k : Keeper) : List (sdk.AccAddress × Bytes) → Nat →
    List (Nat × Option sdk.Error)
  | [], _ => []
  | call :: rest, next =>
    match compileCode k call.2 with
    | .error cause => (0, some (sdk.Error.ErrCreateFailed cause)) :: storeCodeSpec k rest next
    | .ok _ => (next, none) :: storeCodeSpec k rest (next + 1)

/-- The results of a sequence of `generateContractAddress` calls made one after the
other, one per code id: the instance id each call draws from the counter, and the address
it returns. -/
def generateSeq (k : Keeper) : List Nat → WasmStore → List (Nat × sdk.AccAddress)
  | [], _ => []
  | codeID :: rest, st =>
    ((increaseLastInstanceID st).2, (generateContractAddress k st codeID).2) ::
      generateSeq k rest (generateContractAddress k st codeID).1

/-- The value a reader of uvarints finds at the head of a byte string: bytes are taken
up to and including the first one without the continuation bit. -/
def uvarintValue : List Nat → Nat
  | [] => 0
  | b :: rest => if b ≥ 128 then (b - 128) + 128 * uvarintValue rest else b

/-- The records of the module's store: both id counters, the code records and the
contract records (everything but the private regions of the contracts). -/
def records (st : WasmStore) :
    Option Nat × Option Nat × List (Nat × types.CodeInfo) ×
      List (sdk.AccAddress × types.ContractInfo) :=
  (st.lastCodeID, st.lastInstanceID, st.codeInfo, st.contractInfo)

/-- The proviso `HandlersKeepRecords k`: no registered handler changes the records of the
module's store.  A handler that changes only balances satisfies it. -/
def HandlersKeepRecords (k : Keeper) : Prop :=
  ∀ route h, k.router route = some h → ∀ msg ctx, records (h msg ctx).1.store = records ctx.store

/-- The proviso `HandlersNeverRefund k`: no registered handler changes the limit of the
gas meter or lowers the gas consumed. -/
def HandlersNeverRefund (k : Keeper) : Prop :=
  ∀ route h, k.router route = some h → ∀ msg ctx,
    (h msg ctx).1.gas.limit = ctx.gas.limit ∧ ctx.gas.consumed ≤ (h msg ctx).1.gas.consumed

/-- The condition `Res.Keeps R Q c r`: the context of the outcome `r` is related by `R`
to the context `c` the call started in, for a return, and also for a panic when `Q`
holds. -/
def Res.Keeps {α : Type} (R : Ctx → Ctx → Prop) (Q : Prop) (c : Ctx) : Res α → Prop
  | .ret s1 _ => R c s1.ctx
  | .panic s1 _ => Q → R c s1.ctx
  | .outOfFuel => True

/-- The conditions under which a relation `R` between contexts is respected by every step
the keeper takes on its own and by every collaborator it calls: `R` is reflexive and
transitive, and holds across a change of balances, a write to the private region of a
contract, a charge of the gas meter that does not panic (and, when `Q` holds, also one
that panics), and a call of a registered handler. -/
structure StepInvariant (k : Keeper) (R : Ctx → Ctx → Prop) (Q : Prop) : Prop where
  refl : ∀ c, R c c
  trans : ∀ a b c, R a b → R b c → R a c
  bank : ∀ (c : Ctx) (b : Bank), R c { c with bank := b }
  region : ∀ (c : Ctx) (addr : sdk.AccAddress) (kv : KVStore),
    R c { c with store := writeContractStore c.store addr kv }
  gas : ∀ (c : Ctx) (amount : Nat), (ConsumeGas c.gas amount).2 = none →
    R c { c with gas := (ConsumeGas c.gas amount).1 }
  gasPanic : Q → ∀ (c : Ctx) (amount : Nat), R c { c with gas := (ConsumeGas c.gas amount).1 }
  handler : ∀ route h, k.router route = some h → ∀ msg c, R c (h msg c).1

/-! ## The order of dispatch, stated independently of the loop -/

/-- The relation `DispatchedAll k fuel contract msgs s s1`: dispatching the messages `msgs`
one at a time, in list order, starting in `s`, every one returns without error, and the
last one leaves the state `s1`. -/
inductive DispatchedAll (k : Keeper) (fuel : Nat) (contract : Option exported.Account) :
    List wasmTypes.CosmosMsg → State → State → Prop where
  | nil (s : State) : DispatchedAll k fuel contract [] s s
  | cons {msg : wasmTypes.CosmosMsg} {msgs : List wasmTypes.CosmosMsg} {s s1 s2 : State}
      (h : dispatchMessage k fuel contract msg s = .ret s1 none)
      (rest : DispatchedAll k fuel contract msgs s1 s2) :
      DispatchedAll k fuel contract (msg :: msgs) s s2

/-- A numeral in the sense of the specification: a non-empty string of decimal digits,
the decimal encoding of a non-negative integer. -/
def isDecimalNat (s : String) : Bool :=
  !s.data.isEmpty && s.data.all Char.isDigit

/-! ## A concrete keeper, used to evaluate the definitions -/

namespace demo

/-- A stand-in for bech32 decoding: an alphanumeric string decodes to its character
codes, anything else is malformed. -/
def decodeAddress (s : String) : Option sdk.AccAddress :=
  if s.data.all Char.isAlphanum then some (s.data.map Char.toNat) else none

/-- The value of a string of decimal digits, most significant digit first. -/
def digitsValue : List Char → Nat → Option Nat
  | [], acc => some acc
  | c :: cs, acc => if c.isDigit then digitsValue cs (acc * 10 + (c.toNat - 48)) else none

/-- An unsigned decimal numeral without a leading zero, or the numeral of zero. -/
def plainDigits (cs : List Char) : Option Nat :=
  match cs with
  | [] => none
  | ['0'] => some 0
  | '0' :: _ => none
  | _ => digitsValue cs 0

/-- The largest magnitude an `sdk.Int` holds: 255 bits. -/
def maxIntMagnitude : Nat := 2 ^ 255 - 1

/-- A stand-in for `sdk.NewIntFromString` on plain signed decimal numerals.  The SDK
integer is a signed big integer of at most 255 bits, and its parser reads an optional
sign followed by digits; wherever this function accepts a string, it returns the value
the SDK parser returns.  (The SDK also reads numerals with a base prefix, which this
function rejects.) -/
def signedIntFromString (s : String) : Option Int :=
  let bounded : Option Nat → Option Nat := fun r =>
    r.bind (fun n => if n ≤ maxIntMagnitude then some n else none)
  match s.data with
  | '-' :: cs => (bounded (plainDigits cs)).map (fun n => - (n : Int))
  | '+' :: cs => (bounded (plainDigits cs)).map (fun n => (n : Int))
  | cs => (bounded (plainDigits cs)).map (fun n => (n : Int))

/-- The address of the user alice: the character codes of "alice". -/
def alice : sdk.AccAddress := [97, 108, 105, 99, 101]

/-- The address of the user bob: the character codes of "bob". -/
def bob : sdk.AccAddress := [98, 111, 98]

/-- The address of the first contract: the character codes of "c1". -/
def c1 : sdk.AccAddress := [99, 49]

/-- The address of the second contract: the character codes of "c2". -/
def c2 : sdk.AccAddress := [99, 50]

/-- A toy account lookup: the first entry with the address. -/
def getAccount (b : Bank) (addr : sdk.AccAddress) : Option exported.Account :=
  b.find? (fun a => a.Address == addr)

/-- A toy transfer: it fails when the sender has no account, and otherwise records the
coins under the recipient. -/
def sendCoins (sender recipient : sdk.AccAddress) (coins : sdk.Coins) (b : Bank) :
    Bank × Option sdk.Error :=
  match getAccount b sender with
  | none => (b, some (sdk.Error.External "sdk" 9 "unknown address"))
  | some _ => (⟨recipient, coins⟩ :: b, none)

/-- A toy bank handler over `sendCoins`. -/
def bankHandler : Handler := fun msg ctx =>
  match sendCoins msg.FromAddress msg.ToAddress msg.Amount ctx.bank with
  | (b, none) => ({ ctx with bank := b }, ⟨"", 0, ""⟩)
  | (_, some _) => (ctx, ⟨"sdk", 9, "unknown address"⟩)

/-- A toy VM: code `[1]` succeeds and emits nothing, code `[2]` fails, code `[3]`
succeeds and emits one call of the first contract. -/
def vm (codeHash : Bytes) (_ : types.WasmAPIParams) (_ : Bytes) (kv : KVStore) (_ : Nat) :
    KVStore × Except String wasmTypes.Result :=
  if codeHash = [1] then (kv, .ok ⟨10, []⟩)
  else if codeHash = [2] then (kv, .error "vm failed")
  else if codeHash = [3] then
    (kv, .ok ⟨20, [⟨⟨"", "", []⟩, ⟨"c1", [123, 125], []⟩, ⟨""⟩⟩]⟩)
  else (kv, .error "no such code")

/-- A toy VM for the init entrypoint: code `[1]` succeeds with 250 gas used and emits
nothing, code `[2]` fails, code `[3]` succeeds with 520 gas used and emits one call of the
first contract. -/
def initVm (codeHash : Bytes) (_ : types.WasmAPIParams) (_ : Bytes) (kv : KVStore) (_ : Nat) :
    KVStore × Except String wasmTypes.Result :=
  if codeHash = [1] then (kv, .ok ⟨250, []⟩)
  else if codeHash = [2] then (kv, .error "vm failed")
  else if codeHash = [3] then
    (kv, .ok ⟨520, [⟨⟨"", "", []⟩, ⟨"c1", [123, 125], []⟩, ⟨""⟩⟩]⟩)
  else (kv, .error "no such code")

/-- A stand-in for `fmt.Sprintf` with no operands, on formats in which every `%` is
followed directly by a letter or by another `%`, or ends the format: a verb is printed as
missing its operand, a doubled `%` as one, a last `%` as having no verb.  (Flags, widths
and indexes, which `fmt` also reads, are not.) -/
def missingVerbs : List Char → List Char
  | [] => []
  | ['%'] => "%!(NOVERB)".data
  | '%' :: '%' :: rest => '%' :: missingVerbs rest
  | '%' :: c :: rest => "%!".data ++ c :: ("(MISSING)".data ++ missingVerbs rest)
  | c :: rest => c :: missingVerbs rest

/-- A stand-in for `sdk.CodeToDefaultMsg` on the codes used below. -/
def defaultMsg (code : Nat) : String :=
  if code = 1 then "internal error"
  else if code = 5 then "insufficient funds"
  else if code = 9 then "unknown address"
  else "unknown code"

/-- The concrete keeper. -/
def keeper : Keeper where
  AccAddressFromBech32 := decodeAddress
  NewIntFromString := signedIntFromString
  fmtGoSyntax := fun _ => "wasmTypes.CosmosMsg"
  router := fun route => if route = "bank" then some bankHandler else none
  SendCoins := sendCoins
  GetAccount := getAccount
  wasmerExecute := vm
  GasMultiplier := 100
  MaxContractGas := 900000
  wasmerInstantiate := initVm
  wasmerQuery := fun _ key _ _ => ([StoreOp.Get key], .ok (key, 300))
  wasmerCreate := fun code => if code = [] then .error "empty code" else .ok [code.length]
  uncompress := fun code => if code.head? = some 31 then .error "bad gzip" else .ok code
  AddressHash := fun buf => buf.take 4
  queryGasLimit := 5000
  SprintfVerbs := fun format => String.mk (missingVerbs format.data)
  CodeToDefaultMsg := defaultMsg
  contractInfoLen := fun info =>
    8 + info.Address.length + info.Creator.length + info.InitMsg.length
  codeInfoLen := fun info => 4 + info.CodeHash.length + info.Creator.length

/-- The concrete keeper with a VM whose query entrypoint writes the key it is asked, with
value `[1]`, through the store view, and a query gas limit that pays for the write. -/
def writingKeeper : Keeper :=
  { keeper with
    wasmerQuery := fun _ key _ _ => ([StoreOp.Set key [1]], .ok (key, 300))
    queryGasLimit := 100000 }

/-- The concrete keeper with a bank handler that always fails, with code 5 and the log
given. -/
def failingKeeper (log : String) : Keeper :=
  { keeper with router := fun _ => some (fun _ ctx => (ctx, ⟨"sdk", 5, log⟩)) }

/-- A state with two funded users, two contracts running code 1 and 2, and a third
contract address without a record. -/
def state : State where
  ctx :=
    { bank := [⟨alice, [⟨"uluna", 1000⟩]⟩, ⟨bob, [⟨"uluna", 50⟩]⟩, ⟨c1, []⟩, ⟨c2, []⟩]
      store :=
        { lastCodeID := some 4
          lastInstanceID := some 3
          codeInfo := [(1, ⟨[1], alice⟩), (2, ⟨[2], alice⟩), (3, ⟨[3], alice⟩)]
          contractInfo := [(c1, ⟨1, c1, alice, []⟩), (c2, ⟨2, c2, alice, []⟩)]
          contractStore := [] }
      gas := ⟨1000, 0⟩ }
  trace := []

/-- The state `state` with the instance counter at 2 and an account at the address that
`generateContractAddress` derives from code 1 and instance 2. -/
def occupied : State where
  ctx :=
    { bank := ⟨[67, 130, 128, 128], []⟩ :: state.ctx.bank
      store := { state.ctx.store with lastInstanceID := some 2 }
      gas := state.ctx.gas }
  trace := []

/-- The state before anything was stored: the two users, no counters, no records. -/
def fresh : State where
  ctx :=
    { bank := [⟨alice, [⟨"uluna", 1000⟩]⟩, ⟨bob, [⟨"uluna", 50⟩]⟩]
      store :=
        { lastCodeID := none, lastInstanceID := none, codeInfo := [], contractInfo := [],
          contractStore := [] }
      gas := ⟨1000, 0⟩ }
  trace := []

/-- The address `generateContractAddress` derives in `state`, where the instance counter
stands at 3. -/
def newAddr : sdk.AccAddress := [67, 131, 128, 128]

/-- The state in which the instantiation of code 1 by alice, with init payload `[1, 2]`
and a deposit of 7 uluna, returns when started in `state`. -/
def instantiated : State :=
  match InstantiateContract keeper 0 alice 1 [1, 2] [⟨"uluna", 7⟩] state with
  | .ret s _ => s
  | _ => state

/-- The account of the first contract. -/
def account1 : exported.Account := ⟨c1, []⟩

/-- A transfer of 5 uluna from the first contract to bob. -/
def transferOwn : wasmTypes.CosmosMsg :=
  ⟨⟨"c1", "bob", [⟨"uluna", "5"⟩]⟩, ⟨"", [], []⟩, ⟨""⟩⟩

/-- A transfer of 5 uluna from alice to bob. -/
def transferForeign : wasmTypes.CosmosMsg :=
  ⟨⟨"alice", "bob", [⟨"uluna", "5"⟩]⟩, ⟨"", [], []⟩, ⟨""⟩⟩

/-- A call of the first contract with payload `{}` and no funds. -/
def callFirst : wasmTypes.CosmosMsg :=
  ⟨⟨"", "", []⟩, ⟨"c1", [123, 125], []⟩, ⟨""⟩⟩

/-- A call of the second contract, whose code fails. -/
def callSecond : wasmTypes.CosmosMsg :=
  ⟨⟨"", "", []⟩, ⟨"c2", [123, 125], []⟩, ⟨""⟩⟩

/-- A message with the transfer and the contract call both populated. -/
def transferAndCall : wasmTypes.CosmosMsg :=
  ⟨⟨"c1", "bob", [⟨"uluna", "5"⟩]⟩, ⟨"c1", [123, 125], []⟩, ⟨""⟩⟩

/-- A message with the transfer and the opaque data both populated. -/
def transferAndOpaque : wasmTypes.CosmosMsg :=
  ⟨⟨"c1", "bob", [⟨"uluna", "5"⟩]⟩, ⟨"", [], []⟩, ⟨"data"⟩⟩

/-- A message with only opaque data. -/
def opaqueOnly : wasmTypes.CosmosMsg :=
  ⟨⟨"", "", []⟩, ⟨"", [], []⟩, ⟨"data"⟩⟩

/-- A message with every variant empty. -/
def emptyMsg : wasmTypes.CosmosMsg :=
  ⟨⟨"", "", []⟩, ⟨"", [], []⟩, ⟨""⟩⟩

end demo

end keeper

namespace keeper

namespace demo

/-- The concrete keeper with rate 2: the 64-bit product of a remaining gas above 2^63 and
the rate wraps. -/
def doublingKeeper : Keeper :=
  { keeper with GasMultiplier := 2 }

/-- A context whose meter has 2^63 + 5 gas left, nothing consumed. -/
def richCtx : Ctx :=
  { state.ctx with gas := { limit := 9223372036854775813, consumed := 0 } }

end demo

end keeper

/-! ## x/auth/client/rest/broadcast.go -/

namespace rest

/-- The interface `sdk.Msg`, as far as the type switch of the handler tells its values
apart: a `bank.MsgSend`, or a message of any other type (with its route and content). -/
inductive Msg where
  | MsgSend (m : bank.MsgSend)
  | other (route : String) (data : Bytes)
deriving DecidableEq, Repr

/-- The type `types.StdTx`: the messages, and the fee, signatures and memo, which the
handler does not read. -/
structure StdTx where
  Msgs : List Msg
  Fee : Bytes
  Signatures : List Bytes
  Memo : String
deriving DecidableEq, Repr

/-- The type `BroadcastReq`: a tx broadcasting request. -/
structure BroadcastReq where
  Tx : StdTx
  Mode : String
deriving DecidableEq, Repr

/-- The client context with the collaborators the handler calls. -/
structure CLIContext where
  /-- The call `cliCtx.Codec.UnmarshalJSON(body, &req)`. -/
  UnmarshalJSON : Bytes → Except String BroadcastReq
  /-- The call `cliCtx.Codec.MarshalBinaryLengthPrefixed(req.Tx)`. -/
  MarshalBinaryLengthPrefixed : StdTx → Except String Bytes
  /-- The call `cliCtx.WithBroadcastMode(mode).BroadcastTx(txBytes)`; the result is the
  rendered response of the node. -/
  BroadcastTx : String → Bytes → Except String String
  /-- The function `sdk.AccAddressFromBech32`; `none` is a decoding error, on which the
  address returned is nil. -/
  AccAddressFromBech32 : String → Option sdk.AccAddress

/-- The return statement at which the handler ends: after a failed read of the body, a
failed decoding, the `SCAMMER` rejection, a failed encoding, a failed broadcast, or the
posting of the node's response.  The last two come after the call of `BroadcastTx` with
the mode and the bytes recorded. -/
inductive Outcome where
  | readError (err : String)
  | decodeError (err : String)
  | scammer
  | encodeError (err : String)
  | broadcastError (mode : String) (txBytes : Bytes) (err : String)
  | posted (mode : String) (txBytes : Bytes) (res : String)
deriving DecidableEq, Repr

/-- What the handler writes to the response writer: an error with its HTTP status
(`rest.WriteErrorResponse`), or the node's response (`rest.PostProcessResponseBare`). -/
inductive Response where
  | error (status : Nat) (msg : String)
  | body (res : String)
deriving DecidableEq, Repr

/-- The response written at each return statement; `http.StatusBadRequest` is 400 and
`http.StatusInternalServerError` is 500. -/
def Outcome.response : Outcome → Response
  | .readError err => .error 400 err
  | .decodeError err => .error 400 err
  | .scammer => .error 500 "SCAMMER"
  | .encodeError err => .error 500 err
  | .broadcastError _ _ err => .error 500 err
  | .posted _ _ res => .body res

/-- The call of `BroadcastTx` made before each return statement, if any: the mode and the
bytes. -/
def Outcome.broadcast : Outcome → Option (String × Bytes)
  | .broadcastError mode txBytes _ => some (mode, txBytes)
  | .posted mode txBytes _ => some (mode, txBytes)
  | _ => none

/-- The hard-coded address `blockAddress`; the decoding error is dropped, so a failed
decoding leaves the nil address. -/
def blockAddress (cliCtx : CLIContext) : sdk.AccAddress :=
  (cliCtx.AccAddressFromBech32 "terra14gpzywat7nmhdc8my99tgwmlc7pw3ekfj9pct3").getD []

/-- The hard-coded address `allowAddress`. -/
def allowAddress (cliCtx : CLIContext) : sdk.AccAddress :=
  (cliCtx.AccAddressFromBech32 "terra1v9ku44wycfnsucez6fp085f5fsksp47u9x8jr4").getD []

/-- The loop over `req.Tx.Msgs`: `true` when it reaches the `SCAMMER` return. -/
def scanMsgs (block allow : sdk.AccAddress) : List Msg → Bool
  | [] => false
  | .MsgSend msg :: rest =>
    if msg.FromAddress.Equals block then
      if !msg.ToAddress.Equals allow then true else scanMsgs block allow rest
    else scanMsgs block allow rest
  | .other _ _ :: rest => scanMsgs block allow rest

/-- The handler `BroadcastTxRequest`, applied to the result of reading the request
body. -/
def BroadcastTxRequest (cliCtx : CLIContext) (body : Except String Bytes) : Outcome :=
  match body with
  | .error err => .readError err
  | .ok body =>
    match cliCtx.UnmarshalJSON body with
    | .error err => .decodeError err
    | .ok req =>
      if scanMsgs (blockAddress cliCtx) (allowAddress cliCtx) req.Tx.Msgs then .scammer
      else
        match cliCtx.MarshalBinaryLengthPrefixed req.Tx with
        | .error err => .encodeError err
        | .ok txBytes =>
          match cliCtx.BroadcastTx req.Mode txBytes with
          | .error err => .broadcastError req.Mode txBytes err
          | .ok res => .posted req.Mode txBytes res

namespace demo

/-- The blocked address, as the stand-in decoder of `keeper.demo` reads it. -/
def blocked : sdk.AccAddress :=
  "terra14gpzywat7nmhdc8my99tgwmlc7pw3ekfj9pct3".data.map Char.toNat

/-- The allowed address, as the stand-in decoder of `keeper.demo` reads it. -/
def allowed : sdk.AccAddress :=
  "terra1v9ku44wycfnsucez6fp085f5fsksp47u9x8jr4".data.map Char.toNat

/-- A transaction with a governance message and a send from the blocked address to
bob. -/
def stolen : BroadcastReq :=
  { Tx :=
      { Msgs := [.other "gov" [1], .MsgSend ⟨blocked, keeper.demo.bob, [⟨"uluna", 5⟩]⟩]
        Fee := [], Signatures := [], Memo := "" }
    Mode := "block" }

/-- A transaction with a send from the blocked address to the allowed address and a send
from alice to bob. -/
def returned : BroadcastReq :=
  { Tx :=
      { Msgs := [.MsgSend ⟨blocked, allowed, [⟨"uluna", 5⟩]⟩,
                 .MsgSend ⟨keeper.demo.alice, keeper.demo.bob, [⟨"uluna", 1⟩]⟩]
        Fee := [], Signatures := [], Memo := "" }
    Mode := "sync" }

/-- A concrete client context: the body `[1]` decodes to `stolen`, the body `[2]` to
`returned`, every other body is malformed; a transaction is encoded as the number of its
messages; the node accepts every mode. -/
def cliCtx : CLIContext where
  UnmarshalJSON := fun body =>
    if body = [1] then .ok stolen else if body = [2] then .ok returned else .error "bad json"
  MarshalBinaryLengthPrefixed := fun tx => .ok [tx.Msgs.length]
  BroadcastTx := fun _ _ => .ok "accepted"
  AccAddressFromBech32 := keeper.demo.decodeAddress

end demo

end rest

/-! # Theorems -/

namespace keeper

/-! ## Shared lemmas -/

/-- When both addresses decode and every amount parses, `parseToMsgSend` builds the bank
message from the decoded addresses and the parsed coins. -/
theorem parseToMsgSend_ok (k : Keeper) (m : wasmTypes.SendMsg) (fromAddr toAddr : sdk.AccAddress)
    (hfrom : k.AccAddressFromBech32 m.FromAddress = some fromAddr)
    (hto : k.AccAddressFromBech32 m.ToAddress = some toAddr)
    (hcoins : (parseToCoins k m.Amount).2 = none) :
    parseToMsgSend k m =
      .ok { FromAddress := fromAddr, ToAddress := toAddr, Amount := (parseToCoins k m.Amount).1 } := by
  unfold parseToMsgSend
  rw [hfrom, hto]
  cases hc : parseToCoins k m.Amount with
  | mk c e =>
    rw [hc] at hcoins
    simp only at hcoins
    subst hcoins
    rfl

/-- One more message after an error-free dispatch: the loop goes on in the new state. -/
theorem dispatchMessages_cons_ok (k : Keeper) (fuel : Nat) (contract : Option exported.Account)
    (msg : wasmTypes.CosmosMsg) (msgs : List wasmTypes.CosmosMsg) (s s1 : State)
    (h : dispatchMessage k fuel contract msg s = .ret s1 none) :
    dispatchMessages k fuel contract (msg :: msgs) s = dispatchMessages k fuel contract msgs s1 := by
  unfold dispatchMessage at h
  simp only [dispatchMessages, dispatchMessagesWith, h]

/-- A dispatch that does not return error-free ends the loop with its own outcome. -/
theorem dispatchMessages_cons_stop (k : Keeper) (fuel : Nat) (contract : Option exported.Account)
    (msg : wasmTypes.CosmosMsg) (msgs : List wasmTypes.CosmosMsg) (s : State)
    (r : Res (Option sdk.Error))
    (h : dispatchMessage k fuel contract msg s = r) (hr : ∀ s1, r ≠ .ret s1 none) :
    dispatchMessages k fuel contract (msg :: msgs) s = r := by
  unfold dispatchMessage at h
  cases r with
  | ret s1 a =>
    cases a with
    | none => exact absurd rfl (hr s1)
    | some err => simp only [dispatchMessages, dispatchMessagesWith, h]
  | panic s1 p => simp only [dispatchMessages, dispatchMessagesWith, h]
  | outOfFuel => simp only [dispatchMessages, dispatchMessagesWith, h]

/-- The loop over all messages returns error-free exactly when every message does. -/
theorem dispatchMessages_ok_iff (k : Keeper) (fuel : Nat) (contract : Option exported.Account)
    (msgs : List wasmTypes.CosmosMsg) (s s1 : State) :
    dispatchMessages k fuel contract msgs s = .ret s1 none ↔
      DispatchedAll k fuel contract msgs s s1 := by
  induction msgs generalizing s with
  | nil =>
    constructor
    · intro h
      simp only [dispatchMessages, dispatchMessagesWith, Res.ret.injEq, and_true] at h
      subst h
      exact DispatchedAll.nil s
    · intro h
      cases h
      rfl
  | cons m ms ih =>
    constructor
    · intro h
      cases hm : dispatchMessage k fuel contract m s with
      | ret s2 a =>
        cases a with
        | none =>
          rw [dispatchMessages_cons_ok k fuel contract m ms s s2 hm] at h
          exact DispatchedAll.cons hm ((ih s2).1 h)
        | some err =>
          rw [dispatchMessages_cons_stop k fuel contract m ms s _ hm (by intro s3 hc; cases hc)] at h
          cases h
      | panic s2 p =>
        rw [dispatchMessages_cons_stop k fuel contract m ms s _ hm (by intro s3 hc; cases hc)] at h
        cases h
      | outOfFuel =>
        rw [dispatchMessages_cons_stop k fuel contract m ms s _ hm (by intro s3 hc; cases hc)] at h
        cases h
    · intro h
      cases h with
      | cons hm rest =>
        rw [dispatchMessages_cons_ok k fuel contract m ms s _ hm]
        exact (ih _).2 rest

/-- The loop ends with an outcome other than an error-free return exactly when that is
the outcome of the first message that does not return error-free. -/
theorem dispatchMessages_stop_iff (k : Keeper) (fuel : Nat) (contract : Option exported.Account)
    (msgs : List wasmTypes.CosmosMsg) (s : State) (r : Res (Option sdk.Error))
    (hr : ∀ s1, r ≠ .ret s1 none) :
    dispatchMessages k fuel contract msgs s = r ↔
      ∃ pre msg post s0, msgs = pre ++ msg :: post ∧ DispatchedAll k fuel contract pre s s0 ∧
        dispatchMessage k fuel contract msg s0 = r := by
  induction msgs generalizing s with
  | nil =>
    constructor
    · intro h
      exact absurd h.symm (hr s)
    · rintro ⟨pre, msg, post, s0, hsplit, -, -⟩
      simp at hsplit
  | cons m ms ih =>
    constructor
    · intro h
      by_cases hm : ∃ s2, dispatchMessage k fuel contract m s = .ret s2 none
      · obtain ⟨s2, hm⟩ := hm
        rw [dispatchMessages_cons_ok k fuel contract m ms s s2 hm] at h
        obtain ⟨pre, msg, post, s0, hsplit, hall, hmsg⟩ := (ih s2).1 h
        exact ⟨m :: pre, msg, post, s0, by rw [hsplit]; rfl, DispatchedAll.cons hm hall, hmsg⟩
      · have hm2 : ∀ s2, dispatchMessage k fuel contract m s ≠ .ret s2 none :=
          fun s2 hc => hm ⟨s2, hc⟩
        rw [dispatchMessages_cons_stop k fuel contract m ms s _ rfl hm2] at h
        exact ⟨[], m, ms, s, rfl, DispatchedAll.nil s, h⟩
    · rintro ⟨pre, msg, post, s0, hsplit, hall, hmsg⟩
      cases pre with
      | nil =>
        simp only [List.nil_append, List.cons.injEq] at hsplit
        obtain ⟨rfl, rfl⟩ := hsplit
        cases hall
        exact dispatchMessages_cons_stop k fuel contract m ms s r hmsg hr
      | cons p pre =>
        simp only [List.cons_append, List.cons.injEq] at hsplit
        obtain ⟨rfl, rfl⟩ := hsplit
        cases hall with
        | cons hm rest =>
          rw [dispatchMessages_cons_ok k fuel contract m _ s _ hm]
          exact (ih _).2 ⟨pre, msg, post, s0, rfl, rest, hmsg⟩

/-- The loop of `parseToCoins` returns without error exactly when every remaining amount
is accepted by the integer parser. -/
theorem parseToCoinsLoop_ok_iff (k : Keeper) (ws : List wasmTypes.Coin) (acc : sdk.Coins) :
    (parseToCoinsLoop k ws acc).2 = none ↔
      ∀ c ∈ ws, (k.NewIntFromString c.Amount).isSome = true := by
  induction ws generalizing acc with
  | nil => simp [parseToCoinsLoop]
  | cons w ws ih =>
    cases hw : k.NewIntFromString w.Amount with
    | none => simp [parseToCoinsLoop, hw]
    | some n => simp [parseToCoinsLoop, hw, ih]

/-- The loop of `parseToCoins` returns the coins `coins` without error exactly when
`coins` is the accumulator followed by one coin per remaining input coin, in order, with
the same denomination and the parsed amount. -/
theorem parseToCoinsLoop_result_iff (k : Keeper) (ws : List wasmTypes.Coin)
    (acc coins : sdk.Coins) :
    parseToCoinsLoop k ws acc = (coins, none) ↔
      ∃ cs : sdk.Coins, coins = acc ++ cs ∧
        ws.map (fun c => (c.Denom, k.NewIntFromString c.Amount)) =
          cs.map (fun c => (c.Denom, some c.Amount)) := by
  induction ws generalizing acc with
  | nil =>
    constructor
    · intro h
      simp only [parseToCoinsLoop, Prod.mk.injEq, and_true] at h
      exact ⟨[], by simp [h], rfl⟩
    · rintro ⟨cs, rfl, hcs⟩
      have : cs = [] := by
        cases cs with
        | nil => rfl
        | cons c cs => simp at hcs
      subst this
      simp [parseToCoinsLoop]
  | cons w ws ih =>
    cases hw : k.NewIntFromString w.Amount with
    | none =>
      constructor
      · intro h
        simp [parseToCoinsLoop, hw] at h
      · rintro ⟨cs, -, hcs⟩
        cases cs with
        | nil => simp at hcs
        | cons c cs => simp [hw] at hcs
    | some n =>
      simp only [parseToCoinsLoop, hw]
      rw [ih]
      constructor
      · rintro ⟨cs, rfl, hcs⟩
        exact ⟨⟨w.Denom, n⟩ :: cs, by simp, by simp [hw, hcs]⟩
      · rintro ⟨cs, rfl, hcs⟩
        cases cs with
        | nil => simp at hcs
        | cons c cs =>
          simp only [List.map_cons, hw, List.cons.injEq, Prod.mk.injEq, Option.some.injEq] at hcs
          obtain ⟨⟨hd, hn⟩, hrest⟩ := hcs
          refine ⟨cs, ?_, hrest⟩
          cases c with
          | mk d a =>
            simp only at hd hn
            subst hd hn
            simp

/-- The loop of `parseToCoins` returns the error `err` exactly when some remaining amount
is rejected by the integer parser and `err` is `ErrInvalidCoins` for the first such
amount. -/
theorem parseToCoinsLoop_error_iff (k : Keeper) (ws : List wasmTypes.Coin) (acc : sdk.Coins)
    (err : sdk.Error) :
    (parseToCoinsLoop k ws acc).2 = some err ↔
      ∃ pre c post, ws = pre ++ c :: post ∧
        (∀ x ∈ pre, (k.NewIntFromString x.Amount).isSome = true) ∧
        k.NewIntFromString c.Amount = none ∧
        err = sdk.Error.ErrInvalidCoins ("Failed to parse " ++ c.Amount) := by
  induction ws generalizing acc with
  | nil => simp [parseToCoinsLoop]
  | cons w ws ih =>
    cases hw : k.NewIntFromString w.Amount with
    | none =>
      simp only [parseToCoinsLoop, hw, Option.some.injEq]
      constructor
      · intro h
        exact ⟨[], w, ws, rfl, by simp, hw, h.symm⟩
      · rintro ⟨pre, c, post, hsplit, hpre, hc, rfl⟩
        cases pre with
        | nil =>
          simp only [List.nil_append, List.cons.injEq] at hsplit
          rw [hsplit.1]
        | cons p pre =>
          simp only [List.cons_append, List.cons.injEq] at hsplit
          have := hpre p (by simp)
          rw [← hsplit.1, hw] at this
          simp at this
    | some n =>
      simp only [parseToCoinsLoop, hw]
      rw [ih]
      constructor
      · rintro ⟨pre, c, post, rfl, hpre, hc, rfl⟩
        refine ⟨w :: pre, c, post, rfl, ?_, hc, rfl⟩
        intro x hx
        rcases List.mem_cons.1 hx with rfl | hx
        · simp [hw]
        · exact hpre x hx
      · rintro ⟨pre, c, post, hsplit, hpre, hc, rfl⟩
        cases pre with
        | nil =>
          simp only [List.nil_append, List.cons.injEq] at hsplit
          rw [← hsplit.1, hw] at hc
          simp at hc
        | cons p pre =>
          simp only [List.cons_append, List.cons.injEq] at hsplit
          exact ⟨pre, c, post, hsplit.2, fun x hx => hpre x (by simp [hx]), hc, rfl⟩

/-! ## Message dispatcher -/

/-- A message with only the contract call populated, whose target decodes and whose funds
parse: `dispatchMessage` calls `ExecuteContract` once with the target, the invoking
contract's address as caller, the parsed funds and the payload.  An error, a panic or an
exhausted bound is passed on; after an error-free return the last two statements of
`dispatchMessage` run, and they return `ErrInternal`. -/
theorem dispatchMessageWith_contractCall (k : Keeper) (exec : Exec)
    (contract : exported.Account) (msg : wasmTypes.CosmosMsg) (s : State)
    (targetAddr : sdk.AccAddress)
    (hsend : isEmpty (.SendMsg msg.Send) = true)
    (hcontract : isEmpty (.ContractMsg msg.Contract) = false)
    (htarget : k.AccAddressFromBech32 msg.Contract.ContractAddr = some targetAddr)
    (hcoins : (parseToCoins k msg.Contract.Send).2 = none) :
    dispatchMessageWith k exec (some contract) msg s =
      match exec targetAddr contract.GetAddress (parseToCoins k msg.Contract.Send).1
          msg.Contract.Msg
          { ctx := s.ctx,
            trace := s.trace ++ [Event.dispatch (some contract) msg,
              Event.executeContract targetAddr contract.GetAddress
                (parseToCoins k msg.Contract.Send).1 msg.Contract.Msg] } with
      | .ret s1 none => dispatchTail k msg s1
      | r => r := by
  unfold dispatchMessageWith
  cases hc : parseToCoins k msg.Contract.Send with
  | mk c e =>
    rw [hc] at hcoins
    simp only at hcoins
    subst hcoins
    simp only [hsend, hcontract, htarget, State.log, List.append_assoc, List.singleton_append]
    simp only [Bool.not_true, Bool.not_false, Bool.and_true, Bool.false_eq_true, if_false, if_true]
    split <;> simp_all

/-- C1: a message with the transfer populated and the contract call empty, whose two
addresses decode and whose amounts all parse, and whose sender differs from the invoking
contract's address, is answered with `ErrUnauthorized`.  The state returned is the input
state with the dispatch recorded in the trace and nothing else: the context (balances,
store, gas) is the same and no handler call was recorded, whatever the recipient, the
amounts and the bound on nesting are. -/
theorem dispatchMessage_transfer_unauthorized (k : Keeper) (fuel : Nat)
    (contract : exported.Account) (msg : wasmTypes.CosmosMsg) (s : State)
    (fromAddr toAddr : sdk.AccAddress)
    (hsend : isEmpty (.SendMsg msg.Send) = false)
    (hcontract : isEmpty (.ContractMsg msg.Contract) = true)
    (hfrom : k.AccAddressFromBech32 msg.Send.FromAddress = some fromAddr)
    (hto : k.AccAddressFromBech32 msg.Send.ToAddress = some toAddr)
    (hcoins : (parseToCoins k msg.Send.Amount).2 = none)
    (hne : fromAddr ≠ contract.GetAddress) :
    dispatchMessage k fuel (some contract) msg s =
      .ret { ctx := s.ctx, trace := s.trace ++ [Event.dispatch (some contract) msg] }
        (some (sdk.Error.ErrUnauthorized "contract doesn't have permission")) := by
  have hp := parseToMsgSend_ok k msg.Send fromAddr toAddr hfrom hto hcoins
  unfold dispatchMessage dispatchMessageWith
  simp [hsend, hcontract, hp, handleSdkMessage, bank.MsgSend.GetSigners, checkSigners,
    sdk.AccAddress.Equals, hne, State.log]

/-- C1, at a concrete input: the first contract emits a transfer from alice to bob. -/
theorem dispatchMessage_transfer_unauthorized_witness :
    dispatchMessage demo.keeper 0 (some demo.account1) demo.transferForeign demo.state =
      .ret { ctx := demo.state.ctx,
             trace := demo.state.trace ++ [Event.dispatch (some demo.account1) demo.transferForeign] }
        (some (sdk.Error.ErrUnauthorized "contract doesn't have permission")) :=
  dispatchMessage_transfer_unauthorized demo.keeper 0 demo.account1 demo.transferForeign
    demo.state demo.alice demo.bob (by decide) (by decide) (by decide) (by decide) (by decide)
    (by decide)

/-- C2, at the failing input: the first contract's code succeeds and emits nothing, so the
nested `ExecuteContract` returns no error; `dispatchMessage` on a message with only that
contract call populated nevertheless returns `ErrInternal` ("Unknown Msg"), in the state
the nested call left. -/
theorem dispatchMessage_contractCall_success_is_error :
    ∃ s1 : State,
      ExecuteContract demo.keeper 0 demo.c1 demo.c1 [] [123, 125]
          ((demo.state.log (Event.dispatch (some demo.account1) demo.callFirst)).log
            (Event.executeContract demo.c1 demo.c1 [] [123, 125])) = .ret s1 none ∧
      dispatchMessage demo.keeper 1 (some demo.account1) demo.callFirst demo.state =
        .ret s1 (some (sdk.Error.ErrInternal "Unknown Msg: wasmTypes.CosmosMsg")) :=
  ⟨_, rfl, by decide⟩

/-- C3: a message with the transfer and the contract call both populated is answered with
`ErrInternal`.  The state returned is the input state with the dispatch recorded in the
trace and nothing else: neither a handler call nor a contract execution was recorded, and
the context is the same. -/
theorem dispatchMessage_transfer_and_call_rejected (k : Keeper) (fuel : Nat)
    (contract : Option exported.Account) (msg : wasmTypes.CosmosMsg) (s : State)
    (hsend : isEmpty (.SendMsg msg.Send) = false)
    (hcontract : isEmpty (.ContractMsg msg.Contract) = false) :
    dispatchMessage k fuel contract msg s =
      .ret { ctx := s.ctx, trace := s.trace ++ [Event.dispatch contract msg] }
        (some (sdk.Error.ErrInternal "single msg cannot contain multiple msgs")) := by
  unfold dispatchMessage dispatchMessageWith
  simp [hsend, hcontract, State.log]

/-- C3, at a concrete input: a transfer and a contract call in one message. -/
theorem dispatchMessage_transfer_and_call_rejected_witness :
    dispatchMessage demo.keeper 1 (some demo.account1) demo.transferAndCall demo.state =
      .ret { ctx := demo.state.ctx,
             trace := demo.state.trace ++ [Event.dispatch (some demo.account1) demo.transferAndCall] }
        (some (sdk.Error.ErrInternal "single msg cannot contain multiple msgs")) :=
  dispatchMessage_transfer_and_call_rejected demo.keeper 1 (some demo.account1)
    demo.transferAndCall demo.state (by decide) (by decide)

/-- C4, at the failing input: a message with the transfer and the opaque data both
populated is dispatched as a transfer: the handler is called once with the transfer and
`dispatchMessage` returns no error. -/
theorem dispatchMessage_transfer_and_opaque_accepted :
    dispatchMessage demo.keeper 0 (some demo.account1) demo.transferAndOpaque demo.state =
      .ret { ctx := (demo.bankHandler ⟨demo.c1, demo.bob, [⟨"uluna", 5⟩]⟩ demo.state.ctx).1,
             trace := [Event.dispatch (some demo.account1) demo.transferAndOpaque,
                       Event.handler "bank" ⟨demo.c1, demo.bob, [⟨"uluna", 5⟩]⟩] }
        none := by
  decide

/-- C5, as the claim states it, fails: the handler's log is passed to `sdk.NewError` as a
format.  A handler that fails with the log "100%d short" yields an error whose message is
"100%!d(MISSING) short", and a handler that fails with an empty log yields an error whose
message is the default message of its code; in neither case is the message the log. -/
theorem dispatchMessage_transfer_error_message :
    dispatchMessage (demo.failingKeeper "100%d short") 0 (some demo.account1) demo.transferOwn
        demo.state =
      .ret
        { ctx := demo.state.ctx,
          trace := [Event.dispatch (some demo.account1) demo.transferOwn,
            Event.handler "bank" ⟨demo.c1, demo.bob, [⟨"uluna", 5⟩]⟩] }
        (some (sdk.Error.sdkError "sdk" 5 "100%!d(MISSING) short")) ∧
    dispatchMessage (demo.failingKeeper "") 0 (some demo.account1) demo.transferOwn
        demo.state =
      .ret
        { ctx := demo.state.ctx,
          trace := [Event.dispatch (some demo.account1) demo.transferOwn,
            Event.handler "bank" ⟨demo.c1, demo.bob, [⟨"uluna", 5⟩]⟩] }
        (some (sdk.Error.sdkError "sdk" 5 "insufficient funds")) := by
  decide

/-- C5, amended: a message with the transfer populated and the contract call empty, whose
fields all parse and whose sender is the invoking contract's own address, is passed to
the handler registered for the bank route, once: the state returned is the handler's
context with the dispatch and that one handler call (with the decoded sender, recipient
and parsed coins) recorded.  No error is returned exactly when the handler's result is OK;
otherwise the error carries the handler's codespace and code, and its message is the
handler's log as `sdk.NewError` formats it: the log itself whenever the log is not empty
and has no `%` in it, and the default message of the code when the log is empty (and
that default has no `%` in it). -/
theorem dispatchMessage_transfer_delegates (k : Keeper) (fuel : Nat)
    (contract : exported.Account) (msg : wasmTypes.CosmosMsg) (s : State)
    (toAddr : sdk.AccAddress) (h : Handler)
    (hsend : isEmpty (.SendMsg msg.Send) = false)
    (hcontract : isEmpty (.ContractMsg msg.Contract) = true)
    (hfrom : k.AccAddressFromBech32 msg.Send.FromAddress = some contract.GetAddress)
    (hto : k.AccAddressFromBech32 msg.Send.ToAddress = some toAddr)
    (hcoins : (parseToCoins k msg.Send.Amount).2 = none)
    (hroute : k.router "bank" = some h) :
    dispatchMessage k fuel (some contract) msg s =
      .ret
        { ctx := (h ⟨contract.GetAddress, toAddr, (parseToCoins k msg.Send.Amount).1⟩ s.ctx).1,
          trace := s.trace ++ [Event.dispatch (some contract) msg,
            Event.handler "bank" ⟨contract.GetAddress, toAddr, (parseToCoins k msg.Send.Amount).1⟩] }
        (if (h ⟨contract.GetAddress, toAddr, (parseToCoins k msg.Send.Amount).1⟩ s.ctx).2.IsOK
         then none
         else some (sdk.Error.sdkError
          (h ⟨contract.GetAddress, toAddr, (parseToCoins k msg.Send.Amount).1⟩ s.ctx).2.Codespace
          (h ⟨contract.GetAddress, toAddr, (parseToCoins k msg.Send.Amount).1⟩ s.ctx).2.Code
          (formatMessage k
            (h ⟨contract.GetAddress, toAddr, (parseToCoins k msg.Send.Amount).1⟩ s.ctx).2.Code
            (h ⟨contract.GetAddress, toAddr, (parseToCoins k msg.Send.Amount).1⟩
              s.ctx).2.Log))) ∧
    (∀ (code : Nat) (log : String), log ≠ "" → log.data.contains '%' = false →
      formatMessage k code log = log) ∧
    (∀ code : Nat, (k.CodeToDefaultMsg code).data.contains '%' = false →
      formatMessage k code "" = k.CodeToDefaultMsg code) := by
  have hp := parseToMsgSend_ok k msg.Send contract.GetAddress toAddr hfrom hto hcoins
  refine ⟨?_, ?_, ?_⟩
  · unfold dispatchMessage dispatchMessageWith
    simp only [hsend, hcontract, hp, handleSdkMessage, bank.MsgSend.GetSigners, checkSigners,
      sdk.AccAddress.Equals, State.log, bank.MsgSend.Route, hroute, NewError]
    by_cases hok :
        (h ⟨contract.GetAddress, toAddr, (parseToCoins k msg.Send.Amount).1⟩ s.ctx).2.IsOK
    · simp [hok]
    · simp [hok]
  · intro code log hne hpct
    unfold formatMessage Sprintf
    rw [if_neg hne, hpct]
    rfl
  · intro code hpct
    unfold formatMessage Sprintf
    rw [if_pos rfl, hpct]
    rfl

/-- C5 amended, at a concrete input: the first contract sends 5 uluna to bob in a state
where it has no account; the handler fails with code 9 and the log "unknown address", and
the error carries both. -/
theorem dispatchMessage_transfer_delegates_witness :
    dispatchMessage demo.keeper 0 (some demo.account1) demo.transferOwn demo.fresh =
      .ret
        { ctx := demo.fresh.ctx,
          trace := [Event.dispatch (some demo.account1) demo.transferOwn,
            Event.handler "bank" ⟨demo.c1, demo.bob, [⟨"uluna", 5⟩]⟩] }
        (some (sdk.Error.sdkError "sdk" 9 "unknown address")) ∧
    (∀ (code : Nat) (log : String), log ≠ "" → log.data.contains '%' = false →
      formatMessage demo.keeper code log = log) ∧
    (∀ code : Nat, (demo.keeper.CodeToDefaultMsg code).data.contains '%' = false →
      formatMessage demo.keeper code "" = demo.keeper.CodeToDefaultMsg code) :=
  dispatchMessage_transfer_delegates demo.keeper 0 demo.account1 demo.transferOwn demo.fresh
    demo.bob demo.bankHandler (by decide) (by decide) (by decide) (by decide) (by decide) rfl

/-- C6: `dispatchMessages` dispatches the messages one at a time in list order.  It
returns no error, in the state `s1`, exactly when every message, dispatched in turn,
returns no error and the last leaves `s1`.  It returns the error `err`, in the state `s1`,
exactly when the list splits into a part `pre` whose messages all dispatch without error,
a message `msg` whose dispatch (in the state `pre` left) returns `err` in `s1`, and a
rest `post`: the result is the state right after the failing message, so the effects of
`pre` and of `msg` (nested calls included) are kept and nothing of `post` is dispatched.
The same holds for the outcomes that are not returns. -/
theorem dispatchMessages_in_order (k : Keeper) (fuel : Nat) (contract : Option exported.Account)
    (msgs : List wasmTypes.CosmosMsg) (s : State) :
    (∀ s1, dispatchMessages k fuel contract msgs s = .ret s1 none ↔
      DispatchedAll k fuel contract msgs s s1) ∧
    (∀ s1 err, dispatchMessages k fuel contract msgs s = .ret s1 (some err) ↔
      ∃ pre msg post s0, msgs = pre ++ msg :: post ∧ DispatchedAll k fuel contract pre s s0 ∧
        dispatchMessage k fuel contract msg s0 = .ret s1 (some err)) ∧
    (∀ r, (∀ s1, r ≠ .ret s1 none) →
      (dispatchMessages k fuel contract msgs s = r ↔
        ∃ pre msg post s0, msgs = pre ++ msg :: post ∧ DispatchedAll k fuel contract pre s s0 ∧
          dispatchMessage k fuel contract msg s0 = r)) :=
  ⟨fun s1 => dispatchMessages_ok_iff k fuel contract msgs s s1,
   fun s1 err => dispatchMessages_stop_iff k fuel contract msgs s _ (by intro s2 hc; cases hc),
   fun r hr => dispatchMessages_stop_iff k fuel contract msgs s r hr⟩

/-- C7: a message with the transfer and the contract call both empty is answered with
`ErrInternal`: "not yet implemented" when the opaque data is non-empty, "Unknown Msg"
followed by the rendering of the message when it is empty.  The state returned is the
input state with the dispatch recorded in the trace and nothing else. -/
theorem dispatchMessage_neither_populated (k : Keeper) (fuel : Nat)
    (contract : Option exported.Account) (msg : wasmTypes.CosmosMsg) (s : State)
    (hsend : isEmpty (.SendMsg msg.Send) = true)
    (hcontract : isEmpty (.ContractMsg msg.Contract) = true) :
    dispatchMessage k fuel contract msg s =
      .ret { ctx := s.ctx, trace := s.trace ++ [Event.dispatch contract msg] }
        (some (sdk.Error.ErrInternal
          (if msg.Opaque.Data = "" then "Unknown Msg: " ++ k.fmtGoSyntax msg
           else "dispatch opaque message not yet implemented"))) := by
  unfold dispatchMessage dispatchMessageWith dispatchTail
  by_cases hd : msg.Opaque.Data = ""
  · simp [hsend, hcontract, State.log, hd]
  · simp [hsend, hcontract, State.log, hd]

/-- C7, at two concrete inputs: a message with only opaque data, and an empty message. -/
theorem dispatchMessage_neither_populated_witness :
    dispatchMessage demo.keeper 0 (some demo.account1) demo.opaqueOnly demo.state =
      .ret { ctx := demo.state.ctx,
             trace := demo.state.trace ++ [Event.dispatch (some demo.account1) demo.opaqueOnly] }
        (some (sdk.Error.ErrInternal "dispatch opaque message not yet implemented")) ∧
    dispatchMessage demo.keeper 0 (some demo.account1) demo.emptyMsg demo.state =
      .ret { ctx := demo.state.ctx,
             trace := demo.state.trace ++ [Event.dispatch (some demo.account1) demo.emptyMsg] }
        (some (sdk.Error.ErrInternal "Unknown Msg: wasmTypes.CosmosMsg")) :=
  ⟨dispatchMessage_neither_populated demo.keeper 0 (some demo.account1) demo.opaqueOnly
      demo.state (by decide) (by decide),
   dispatchMessage_neither_populated demo.keeper 0 (some demo.account1) demo.emptyMsg
      demo.state (by decide) (by decide)⟩

/-- C8, as the claim states it, fails: with an integer parser that reads signed numerals,
as the SDK one does, the amount "-5" is accepted and becomes a coin of amount -5, although
"-5" is not the decimal encoding of a non-negative integer. -/
theorem parseToCoins_accepts_negative_amount :
    parseToCoins demo.keeper [⟨"uluna", "-5"⟩] = ([⟨"uluna", -5⟩], none) ∧
      isDecimalNat "-5" = false := by
  decide

/-- C8, amended: `parseToCoins` succeeds exactly when every amount string is accepted by
the integer parser `NewIntFromString`; it succeeds with the coins `coins` exactly when
`coins` has one coin per input coin, in the same order, with the same denomination and the
parsed integer as amount; and it fails with the error `err` exactly when `err` is
`ErrInvalidCoins` for the first amount the parser rejects. -/
theorem parseToCoins_spec (k : Keeper) (ws : List wasmTypes.Coin) :
    ((parseToCoins k ws).2 = none ↔ ∀ c ∈ ws, (k.NewIntFromString c.Amount).isSome = true) ∧
    (∀ coins, parseToCoins k ws = (coins, none) ↔
      ws.map (fun c => (c.Denom, k.NewIntFromString c.Amount)) =
        coins.map (fun c => (c.Denom, some c.Amount))) ∧
    (∀ err, (parseToCoins k ws).2 = some err ↔
      ∃ pre c post, ws = pre ++ c :: post ∧
        (∀ x ∈ pre, (k.NewIntFromString x.Amount).isSome = true) ∧
        k.NewIntFromString c.Amount = none ∧
        err = sdk.Error.ErrInvalidCoins ("Failed to parse " ++ c.Amount)) := by
  refine ⟨parseToCoinsLoop_ok_iff k ws [], ?_, fun err => parseToCoinsLoop_error_iff k ws [] err⟩
  intro coins
  unfold parseToCoins
  rw [parseToCoinsLoop_result_iff]
  simp

/-! ## Invocation pipeline -/

/-- C9: executing a contract address that has no stored contract record returns
`ErrNotFound` in the unchanged state: the context (balances, store, gas) is the same and
nothing was added to the trace, so no transfer, no VM call, no gas consumption and no
dispatch took place, whatever the caller, the funds, the payload and the bound on nesting
are. -/
theorem ExecuteContract_unknown_contract (k : Keeper) (fuel : Nat)
    (contractAddress caller : sdk.AccAddress) (coins : sdk.Coins) (msg : Bytes) (s : State)
    (h : s.ctx.store.contractInfo.lookup contractAddress = none) :
    ExecuteContract k fuel contractAddress caller coins msg s =
      .ret s (some (sdk.Error.ErrNotFound "contract")) := by
  unfold ExecuteContract ExecuteContractWith getContractDetails
  simp [h]

/-- C9, at a concrete input: alice executes bob's address, which is not a contract. -/
theorem ExecuteContract_unknown_contract_witness :
    ExecuteContract demo.keeper 1 demo.bob demo.alice [⟨"uluna", 7⟩] [123, 125] demo.state =
      .ret demo.state (some (sdk.Error.ErrNotFound "contract")) :=
  ExecuteContract_unknown_contract demo.keeper 1 demo.bob demo.alice [⟨"uluna", 7⟩] [123, 125]
    demo.state (by decide)

/-- C10: when the contract record and its code record exist, the transfer of the attached
funds returns no error and leaves the balances `bank1`, and the VM then fails with
`cause`, `ExecuteContract` returns `ErrExecuteFailed cause`.  The balances returned are
`bank1`, those right after the transfer; the gas meter is untouched; the trace records the
transfer and the VM call and nothing else, so no message was dispatched. -/
theorem ExecuteContract_vm_failure (k : Keeper) (fuel : Nat)
    (contractAddress caller : sdk.AccAddress) (coins : sdk.Coins) (msg : Bytes) (s : State)
    (contractInfo : types.ContractInfo) (codeInfo : types.CodeInfo) (bank1 : Bank)
    (kv1 : KVStore) (cause : String)
    (hcontract : s.ctx.store.contractInfo.lookup contractAddress = some contractInfo)
    (hcode : s.ctx.store.codeInfo.lookup contractInfo.CodeID = some codeInfo)
    (hsend : k.SendCoins caller contractAddress coins s.ctx.bank = (bank1, none))
    (hvm : k.wasmerExecute codeInfo.CodeHash
        (types.NewWasmAPIParams caller coins (k.GetAccount bank1 contractAddress)) msg
        (contractStoreView s.ctx.store contractAddress)
        (gasForContract k { s.ctx with bank := bank1 }) = (kv1, .error cause)) :
    ExecuteContract k fuel contractAddress caller coins msg s =
      .ret
        { ctx :=
            { bank := bank1
              store := writeContractStore s.ctx.store contractAddress kv1
              gas := s.ctx.gas }
          trace := s.trace ++
            [Event.sendCoins caller contractAddress coins,
             Event.wasmerExecute codeInfo.CodeHash
               (types.NewWasmAPIParams caller coins (k.GetAccount bank1 contractAddress)) msg
               (gasForContract k { s.ctx with bank := bank1 })] }
        (some (sdk.Error.ErrExecuteFailed cause)) := by
  unfold ExecuteContract ExecuteContractWith getContractDetails
  simp [hcontract, hcode, hsend, hvm]

/-- C10, at a concrete input: alice executes the second contract, whose code fails, with
7 uluna attached. -/
theorem ExecuteContract_vm_failure_witness :
    ExecuteContract demo.keeper 1 demo.c2 demo.alice [⟨"uluna", 7⟩] [123, 125] demo.state =
      .ret
        { ctx :=
            { bank := ⟨demo.c2, [⟨"uluna", 7⟩]⟩ :: demo.state.ctx.bank
              store := writeContractStore demo.state.ctx.store demo.c2 []
              gas := demo.state.ctx.gas }
          trace :=
            [Event.sendCoins demo.alice demo.c2 [⟨"uluna", 7⟩],
             Event.wasmerExecute [2]
               (types.NewWasmAPIParams demo.alice [⟨"uluna", 7⟩] (some ⟨demo.c2, [⟨"uluna", 7⟩]⟩))
               [123, 125] 100000] }
        (some (sdk.Error.ErrExecuteFailed "vm failed")) :=
  ExecuteContract_vm_failure demo.keeper 1 demo.c2 demo.alice [⟨"uluna", 7⟩] [123, 125]
    demo.state ⟨2, demo.c2, demo.alice, []⟩ ⟨[2], demo.alice⟩
    (⟨demo.c2, [⟨"uluna", 7⟩]⟩ :: demo.state.ctx.bank) [] "vm failed"
    (by decide) (by decide) (by decide) rfl

end keeper

namespace keeper

/-! ## Frame lemmas: what every nested call and every dispatch respects -/

/-- An outcome that keeps `R` from a context `c1` keeps it from every context related to
`c1`. -/
theorem Res.Keeps.from {α : Type} {k : Keeper} {R : Ctx → Ctx → Prop} {Q : Prop}
    (inv : StepInvariant k R Q) {c c1 : Ctx} {r : Res α} (h : R c c1) (hr : r.Keeps R Q c1) :
    r.Keeps R Q c := by
  cases r with
  | ret s a => exact inv.trans _ _ _ h hr
  | panic s p => exact fun q => inv.trans _ _ _ h (hr q)
  | outOfFuel => trivial

/-- The gas reconciliation respects every step invariant. -/
theorem consumeGas_keeps {k : Keeper} {R : Ctx → Ctx → Prop} {Q : Prop}
    (inv : StepInvariant k R Q) (gas : Nat) (s : State) :
    (consumeGas k gas s).Keeps R Q s.ctx := by
  unfold consumeGas
  by_cases h0 : k.GasMultiplier = 0
  · simp only [h0, if_true]
    exact fun _ => inv.refl _
  · simp only [h0, if_false]
    cases hp : (ConsumeGas s.ctx.gas (gas / k.GasMultiplier)).2 with
    | none => exact inv.gas _ _ hp
    | some p => exact fun q => inv.gasPanic q _ _

/-- The gas reconciliation respects every step invariant: the form for a named outcome. -/
theorem consumeGas_keeps_of_eq {k : Keeper} {R : Ctx → Ctx → Prop} {Q : Prop}
    (inv : StepInvariant k R Q) (gas : Nat) (s : State) (r : Res Unit)
    (h : consumeGas k gas s = r) : r.Keeps R Q s.ctx := by
  rw [← h]
  exact consumeGas_keeps inv gas s

/-- The handling of a bank message respects every step invariant. -/
theorem handleSdkMessage_keeps {k : Keeper} {R : Ctx → Ctx → Prop} {Q : Prop}
    (inv : StepInvariant k R Q) (contract : Option exported.Account) (msg : bank.MsgSend)
    (s : State) : (handleSdkMessage k contract msg s).Keeps R Q s.ctx := by
  unfold handleSdkMessage
  cases contract with
  | none => exact fun _ => inv.refl _
  | some acc =>
    simp only
    cases checkSigners acc.GetAddress msg.GetSigners with
    | some err => exact inv.refl _
    | none =>
      simp only
      cases hr : k.router msg.Route with
      | none => exact inv.refl _
      | some h =>
        simp only
        split
        · exact inv.handler _ h hr msg s.ctx
        · exact inv.handler _ h hr msg s.ctx

/-- The last two statements of `dispatchMessage` leave the context as it is. -/
theorem dispatchTail_keeps {k : Keeper} {R : Ctx → Ctx → Prop} {Q : Prop}
    (inv : StepInvariant k R Q) (msg : wasmTypes.CosmosMsg) (s : State) :
    (dispatchTail k msg s).Keeps R Q s.ctx := by
  unfold dispatchTail
  split
  · exact inv.refl _
  · exact inv.refl _

/-- The dispatch of one message respects every step invariant the nested call
respects. -/
theorem dispatchMessageWith_keeps {k : Keeper} {R : Ctx → Ctx → Prop} {Q : Prop}
    (inv : StepInvariant k R Q) (exec : Exec)
    (hexec : ∀ a b c d s, (exec a b c d s).Keeps R Q s.ctx)
    (contract : Option exported.Account) (msg : wasmTypes.CosmosMsg) (s : State) :
    (dispatchMessageWith k exec contract msg s).Keeps R Q s.ctx := by
  unfold dispatchMessageWith
  simp only
  split
  · exact inv.refl _
  · split
    · split
      · exact inv.refl _
      · exact handleSdkMessage_keeps inv contract _ (s.log _)
    · split
      · split
        · exact inv.refl _
        · split
          · exact inv.refl _
          · split
            · exact fun _ => inv.refl _
            · generalize hg : exec _ _ _ _ _ = r
              have hx : r.Keeps R Q s.ctx := by
                rw [← hg]
                exact hexec _ _ _ _ _
              cases r with
              | ret s1 e =>
                cases e with
                | none => exact Res.Keeps.from inv hx (dispatchTail_keeps inv msg s1)
                | some err => exact hx
              | panic s1 p => exact hx
              | outOfFuel => trivial
      · exact dispatchTail_keeps inv msg (s.log _)

/-- The dispatch of a list of messages respects every step invariant the nested call
respects. -/
theorem dispatchMessagesWith_keeps {k : Keeper} {R : Ctx → Ctx → Prop} {Q : Prop}
    (inv : StepInvariant k R Q) (exec : Exec)
    (hexec : ∀ a b c d s, (exec a b c d s).Keeps R Q s.ctx)
    (contract : Option exported.Account) (msgs : List wasmTypes.CosmosMsg) (s : State) :
    (dispatchMessagesWith k exec contract msgs s).Keeps R Q s.ctx := by
  induction msgs generalizing s with
  | nil => exact inv.refl _
  | cons m ms ih =>
    unfold dispatchMessagesWith
    have hm := dispatchMessageWith_keeps inv exec hexec contract m s
    split
    · rename_i hres
      rw [hres] at hm
      exact hm
    · rename_i s1 hres
      rw [hres] at hm
      exact Res.Keeps.from inv hm (ih s1)
    · rename_i hres
      rw [hres] at hm
      exact hm
    · trivial

/-- The execution of a contract respects every step invariant the nested call
respects. -/
theorem ExecuteContractWith_keeps {k : Keeper} {R : Ctx → Ctx → Prop} {Q : Prop}
    (inv : StepInvariant k R Q) (exec : Exec)
    (hexec : ∀ a b c d s, (exec a b c d s).Keeps R Q s.ctx)
    (contractAddress caller : sdk.AccAddress) (coins : sdk.Coins) (msg : Bytes) (s : State) :
    (ExecuteContractWith k exec contractAddress caller coins msg s).Keeps R Q s.ctx := by
  unfold ExecuteContractWith
  split
  · exact inv.refl _
  · simp only
    split
    · exact inv.bank _ _
    · have h1 := inv.bank s.ctx (k.SendCoins caller contractAddress coins s.ctx.bank).1
      generalize k.wasmerExecute _ _ _ _ _ = ran
      split
      · exact inv.trans _ _ _ h1 (inv.region _ _ _)
      · have h2 := inv.trans _ _ _ h1 (inv.region _ contractAddress ran.1)
        generalize hg : consumeGas k _ _ = r
        have hc := consumeGas_keeps_of_eq inv _ _ r hg
        cases r with
        | ret s3 u =>
          exact Res.Keeps.from inv (inv.trans _ _ _ h2 hc)
            (dispatchMessagesWith_keeps inv exec hexec _ _ s3)
        | panic s3 p => exact fun q => inv.trans _ _ _ h2 (hc q)
        | outOfFuel => trivial

/-- Every nested call respects every step invariant, whatever the bound on nesting. -/
theorem nestedExecute_keeps {k : Keeper} {R : Ctx → Ctx → Prop} {Q : Prop}
    (inv : StepInvariant k R Q) (fuel : Nat) :
    ∀ a b c d s, (nestedExecute k fuel a b c d s).Keeps R Q s.ctx := by
  induction fuel with
  | zero => intro a b c d s; trivial
  | succ n ih =>
    intro a b c d s
    exact ExecuteContractWith_keeps inv (nestedExecute k n) ih a b c d s

/-- The records of the store are a step invariant, also across panics, when no handler
changes them. -/
theorem records_invariant (k : Keeper) (hk : HandlersKeepRecords k) :
    StepInvariant k (fun c c1 => records c1.store = records c.store) True where
  refl := fun _ => rfl
  trans := fun _ _ _ h1 h2 => h2.trans h1
  bank := fun _ _ => rfl
  region := fun _ _ _ => rfl
  gas := fun _ _ _ => rfl
  gasPanic := fun _ _ _ => rfl
  handler := fun route h hr msg c => hk route h hr msg c

/-- The gas meter only grows, its limit fixed, across every step that returns, when no
handler refunds gas. -/
theorem gas_invariant (k : Keeper) (hk : HandlersNeverRefund k) :
    StepInvariant k
      (fun c c1 => c1.gas.limit = c.gas.limit ∧ c.gas.consumed ≤ c1.gas.consumed) False where
  refl := fun _ => ⟨rfl, le_refl _⟩
  trans := fun _ _ _ h1 h2 => ⟨h2.1.trans h1.1, le_trans h1.2 h2.2⟩
  bank := fun _ _ => ⟨rfl, le_refl _⟩
  region := fun _ _ _ => ⟨rfl, le_refl _⟩
  gas := by
    intro c amount h
    unfold ConsumeGas at h ⊢
    split at h
    · simp at h
    · split at h
      · simp at h
      · rename_i h1 h2
        simp [h1, h2]
  gasPanic := fun q => q.elim
  handler := fun route h hr msg c => hk route h hr msg c

/-- Drawing an instance id changes the instance counter and nothing else. -/
theorem generateContractAddress_store (k : Keeper) (st : WasmStore) (codeID : Nat) :
    (generateContractAddress k st codeID).1 =
      { st with lastInstanceID := some (((st.lastInstanceID.getD 1) + 1) % uint64Size) } ∧
    (generateContractAddress k st codeID).2 =
      k.AddressHash (addrBuffer (contractID codeID (st.lastInstanceID.getD 1))) :=
  ⟨rfl, rfl⟩

/-- An `InstantiateContract` call that returns an error keeps, from the context in which
the instance id was drawn, every step invariant the nested call respects. -/
theorem InstantiateContractWith_error_keeps {k : Keeper} {R : Ctx → Ctx → Prop} {Q : Prop}
    (inv : StepInvariant k R Q) (exec : Exec)
    (hexec : ∀ a b c d s, (exec a b c d s).Keeps R Q s.ctx)
    (creator : sdk.AccAddress) (codeID : Nat) (initMsg : Bytes) (deposit : sdk.Coins)
    (s s1 : State) (addr : sdk.AccAddress) (err : sdk.Error)
    (h : InstantiateContractWith k exec creator codeID initMsg deposit s =
      .ret s1 (addr, some err)) :
    R { s.ctx with store := (generateContractAddress k s.ctx.store codeID).1 } s1.ctx := by
  unfold InstantiateContractWith at h
  simp only at h
  split at h
  · simp only [Res.ret.injEq] at h
    rw [← h.1]
    exact inv.refl _
  · split at h
    · simp only [Res.ret.injEq] at h
      rw [← h.1]
      exact inv.bank _ _
    · have h1 := inv.bank { s.ctx with store := (generateContractAddress k s.ctx.store codeID).1 }
        (k.SendCoins creator (generateContractAddress k s.ctx.store codeID).2 deposit s.ctx.bank).1
      split at h
      · simp only [Res.ret.injEq] at h
        rw [← h.1]
        exact h1
      · generalize k.wasmerInstantiate _ _ _ _ _ = ran at h
        have h2 := inv.trans _ _ _ h1
          (inv.region _ (generateContractAddress k s.ctx.store codeID).2 ran.1)
        split at h
        · simp only [Res.ret.injEq] at h
          rw [← h.1]
          exact h2
        · generalize hg : consumeGas k _ _ = r at h
          have hc := consumeGas_keeps_of_eq inv _ _ r hg
          cases r with
          | panic s3 p => simp at h
          | outOfFuel => simp at h
          | ret s3 u =>
            simp only at h
            generalize hd : dispatchMessagesWith k exec _ _ s3 = rd at h
            have hdk : rd.Keeps R Q s3.ctx := by
              rw [← hd]
              exact dispatchMessagesWith_keeps inv exec hexec _ _ s3
            cases rd with
            | panic s4 p => simp at h
            | outOfFuel => simp at h
            | ret s4 e =>
              cases e with
              | none => simp at h
              | some e2 =>
                simp only [Res.ret.injEq] at h
                rw [← h.1]
                exact inv.trans _ _ _ (inv.trans _ _ _ h2 hc) hdk

end keeper

namespace keeper

/-! ## Instantiation -/

/-- C11: an `InstantiateContract` call in which no account occupies the derived address,
the deposit transfer returns no error, the code record exists, the VM init call succeeds,
the gas reconciliation returns and the dispatch of the emitted messages returns no
error, returns the derived address without error, in the state the dispatch left with the
contract record written; looking up that address then yields the record with exactly the
given code id, that address, the given creator and the given init payload.  And every
call that returns an error leaves the contract records as they were, provided no handler
changes the records. -/
theorem InstantiateContract_persists_record (k : Keeper) :
    (∀ (fuel : Nat) (creator : sdk.AccAddress) (codeID : Nat) (initMsg : Bytes)
        (deposit : sdk.Coins) (s : State) (st0 : WasmStore) (addr : sdk.AccAddress)
        (bank1 : Bank) (codeInfo : types.CodeInfo) (kv1 : KVStore) (res : wasmTypes.Result)
        (s3 s4 : State),
      generateContractAddress k s.ctx.store codeID = (st0, addr) →
      k.GetAccount s.ctx.bank addr = none →
      k.SendCoins creator addr deposit s.ctx.bank = (bank1, none) →
      s.ctx.store.codeInfo.lookup codeID = some codeInfo →
      k.wasmerInstantiate codeInfo.CodeHash
          (types.NewWasmAPIParams creator deposit (k.GetAccount bank1 addr)) initMsg
          (contractStoreView st0 addr)
          (gasForContract k { bank := bank1, store := st0, gas := s.ctx.gas }) =
        (kv1, .ok res) →
      consumeGas k res.GasUsed
          { ctx := { bank := bank1, store := writeContractStore st0 addr kv1, gas := s.ctx.gas },
            trace := s.trace ++
              [Event.sendCoins creator addr deposit,
               Event.wasmerInstantiate codeInfo.CodeHash
                 (types.NewWasmAPIParams creator deposit (k.GetAccount bank1 addr)) initMsg
                 (gasForContract k { bank := bank1, store := st0, gas := s.ctx.gas })] } =
        .ret s3 () →
      dispatchMessages k fuel (k.GetAccount bank1 addr) res.Messages s3 = .ret s4 none →
      InstantiateContract k fuel creator codeID initMsg deposit s =
          .ret
            { ctx :=
                { s4.ctx with
                  store := SetContractInfo s4.ctx.store addr
                    (types.NewContractInfo codeID addr creator initMsg) },
              trace := s4.trace }
            (addr, none) ∧
        (SetContractInfo s4.ctx.store addr
            (types.NewContractInfo codeID addr creator initMsg)).contractInfo.lookup addr =
          some { CodeID := codeID, Address := addr, Creator := creator, InitMsg := initMsg }) ∧
    (HandlersKeepRecords k →
      ∀ (fuel : Nat) (creator : sdk.AccAddress) (codeID : Nat) (initMsg : Bytes)
        (deposit : sdk.Coins) (s s1 : State) (addr : sdk.AccAddress) (err : sdk.Error),
      InstantiateContract k fuel creator codeID initMsg deposit s = .ret s1 (addr, some err) →
      s1.ctx.store.contractInfo = s.ctx.store.contractInfo) := by
  constructor
  · intro fuel creator codeID initMsg deposit s st0 addr bank1 codeInfo kv1 res s3 s4
      hgen hfree hsend hcode hvm hgas hdisp
    constructor
    · have hcode0 : st0.codeInfo.lookup codeID = some codeInfo := by
        have := (generateContractAddress_store k s.ctx.store codeID).1
        rw [hgen] at this
        simp only at this
        rw [this]
        exact hcode
      unfold dispatchMessages at hdisp
      unfold InstantiateContract InstantiateContractWith
      simp only [hgen, hfree, hsend, hcode0, hvm, List.append_assoc, List.singleton_append,
        hgas, hdisp]
    · simp [SetContractInfo, List.lookup, types.NewContractInfo]
  · intro hk fuel creator codeID initMsg deposit s s1 addr err h
    have hr := InstantiateContractWith_error_keeps (records_invariant k hk)
      (nestedExecute k fuel) (nestedExecute_keeps (records_invariant k hk) fuel)
      creator codeID initMsg deposit s s1 addr err h
    simp only [records, Prod.mk.injEq] at hr
    rw [hr.2.2.2]
    rfl

/-- C12: when an account already exists at the derived address, `InstantiateContract`
returns `ErrAccountExists` for that account.  The state returned differs from the input
state in the instance counter only: the balances and the trace are the same (no transfer,
no VM call), and so are the contract records. -/
theorem InstantiateContract_account_exists (k : Keeper) (fuel : Nat) (creator : sdk.AccAddress)
    (codeID : Nat) (initMsg : Bytes) (deposit : sdk.Coins) (s : State)
    (existingAccnt : exported.Account)
    (h : k.GetAccount s.ctx.bank (generateContractAddress k s.ctx.store codeID).2 =
      some existingAccnt) :
    InstantiateContract k fuel creator codeID initMsg deposit s =
      .ret
        { ctx :=
            { bank := s.ctx.bank
              store :=
                { s.ctx.store with
                  lastInstanceID :=
                    some (((s.ctx.store.lastInstanceID.getD 1) + 1) % uint64Size) }
              gas := s.ctx.gas }
          trace := s.trace }
        ((generateContractAddress k s.ctx.store codeID).2,
          some (sdk.Error.ErrAccountExists existingAccnt.GetAddress)) := by
  unfold InstantiateContract InstantiateContractWith
  simp only [h]
  rfl

/-- C12, at a concrete input: the instance counter stands at 2 and the address derived
from it already belongs to an account. -/
theorem InstantiateContract_account_exists_witness :
    InstantiateContract demo.keeper 1 demo.alice 1 [] [⟨"uluna", 7⟩] demo.occupied =
      .ret
        { ctx :=
            { bank := demo.occupied.ctx.bank
              store := { demo.occupied.ctx.store with lastInstanceID := some 3 }
              gas := demo.occupied.ctx.gas }
          trace := demo.occupied.trace }
        ([67, 130, 128, 128], some (sdk.Error.ErrAccountExists [67, 130, 128, 128])) :=
  InstantiateContract_account_exists demo.keeper 1 demo.alice 1 [] [⟨"uluna", 7⟩]
    demo.occupied ⟨[67, 130, 128, 128], []⟩ (by decide)

/-- C13: when no account occupies the derived address and the deposit transfer returns no
error and leaves the balances `bank1`, a missing code record makes `InstantiateContract`
return `ErrNotFound`, and a failing VM init call makes it return `ErrInstantiateFailed`
with the VM's cause.  In both cases the balances returned are `bank1`, those right after
the deposit, and the contract records are those of the input state: an address without a
record before the call has none after it. -/
theorem InstantiateContract_keeps_deposit (k : Keeper) (fuel : Nat) (creator : sdk.AccAddress)
    (codeID : Nat) (initMsg : Bytes) (deposit : sdk.Coins) (s : State) (st0 : WasmStore)
    (addr : sdk.AccAddress) (bank1 : Bank)
    (hgen : generateContractAddress k s.ctx.store codeID = (st0, addr))
    (hfree : k.GetAccount s.ctx.bank addr = none)
    (hsend : k.SendCoins creator addr deposit s.ctx.bank = (bank1, none))
    (hnone : s.ctx.store.contractInfo.lookup addr = none) :
    (s.ctx.store.codeInfo.lookup codeID = none →
      InstantiateContract k fuel creator codeID initMsg deposit s =
          .ret
            { ctx := { bank := bank1, store := st0, gas := s.ctx.gas },
              trace := s.trace ++ [Event.sendCoins creator addr deposit] }
            (addr, some (sdk.Error.ErrNotFound "contract")) ∧
        st0.contractInfo.lookup addr = none) ∧
    (∀ (codeInfo : types.CodeInfo) (kv1 : KVStore) (cause : String),
      s.ctx.store.codeInfo.lookup codeID = some codeInfo →
      k.wasmerInstantiate codeInfo.CodeHash
          (types.NewWasmAPIParams creator deposit (k.GetAccount bank1 addr)) initMsg
          (contractStoreView st0 addr)
          (gasForContract k { bank := bank1, store := st0, gas := s.ctx.gas }) =
        (kv1, .error cause) →
      InstantiateContract k fuel creator codeID initMsg deposit s =
          .ret
            { ctx :=
                { bank := bank1, store := writeContractStore st0 addr kv1, gas := s.ctx.gas },
              trace := s.trace ++
                [Event.sendCoins creator addr deposit,
                 Event.wasmerInstantiate codeInfo.CodeHash
                   (types.NewWasmAPIParams creator deposit (k.GetAccount bank1 addr)) initMsg
                   (gasForContract k { bank := bank1, store := st0, gas := s.ctx.gas })] }
            (addr, some (sdk.Error.ErrInstantiateFailed cause)) ∧
        (writeContractStore st0 addr kv1).contractInfo.lookup addr = none) := by
  have hst : st0 = { s.ctx.store with
      lastInstanceID := some (((s.ctx.store.lastInstanceID.getD 1) + 1) % uint64Size) } := by
    have := (generateContractAddress_store k s.ctx.store codeID).1
    rw [hgen] at this
    exact this
  have hrec : st0.contractInfo.lookup addr = none := by rw [hst]; exact hnone
  constructor
  · intro hcode
    have hcode0 : st0.codeInfo.lookup codeID = none := by rw [hst]; exact hcode
    refine ⟨?_, hrec⟩
    unfold InstantiateContract InstantiateContractWith
    simp only [hgen, hfree, hsend, hcode0]
  · intro codeInfo kv1 cause hcode hvm
    have hcode0 : st0.codeInfo.lookup codeID = some codeInfo := by rw [hst]; exact hcode
    refine ⟨?_, hrec⟩
    unfold InstantiateContract InstantiateContractWith
    simp only [hgen, hfree, hsend, hcode0, hvm, List.append_assoc, List.singleton_append]

end keeper

namespace keeper

/-! ## Code registry and address derivation -/

/-- A `StoreCode` call whose upload fails to decompress or compile returns code id 0 with
`ErrCreateFailed` and leaves the context as it is. -/
theorem StoreCode_failure (k : Keeper) (creator : sdk.AccAddress) (wasmCode : Bytes) (s : State)
    (cause : String) (h : compileCode k wasmCode = .error cause) :
    (StoreCode k creator wasmCode s).2 = (0, some (sdk.Error.ErrCreateFailed cause)) ∧
      (StoreCode k creator wasmCode s).1.ctx = s.ctx := by
  unfold compileCode at h
  unfold StoreCode
  cases hu : k.uncompress wasmCode with
  | error err =>
    rw [hu] at h
    simp only [Except.error.injEq] at h
    subst h
    exact ⟨rfl, rfl⟩
  | ok code =>
    rw [hu] at h
    simp only at h
    simp [h]

/-- A `StoreCode` call whose upload decompresses and compiles returns the current value of
the code counter (1 when none is stored) without error, and leaves the store with the
counter advanced by one and the code record, of the hash and the creator, written under
the id returned. -/
theorem StoreCode_success (k : Keeper) (creator : sdk.AccAddress) (wasmCode : Bytes) (s : State)
    (codeHash : Bytes) (h : compileCode k wasmCode = .ok codeHash) :
    (StoreCode k creator wasmCode s).2 = (s.ctx.store.lastCodeID.getD 1, none) ∧
      (StoreCode k creator wasmCode s).1.ctx =
        { s.ctx with
          store :=
            SetCodeInfo
              { s.ctx.store with
                lastCodeID := some ((s.ctx.store.lastCodeID.getD 1 + 1) % uint64Size) }
              (s.ctx.store.lastCodeID.getD 1) (types.NewCodeInfo codeHash creator) } ∧
      (StoreCode k creator wasmCode s).1.ctx.store.lastCodeID =
        some ((s.ctx.store.lastCodeID.getD 1 + 1) % uint64Size) ∧
      (StoreCode k creator wasmCode s).1.ctx.store.codeInfo.lookup
          (s.ctx.store.lastCodeID.getD 1) =
        some { CodeHash := codeHash, Creator := creator } := by
  unfold compileCode at h
  unfold StoreCode
  cases hu : k.uncompress wasmCode with
  | error err =>
    rw [hu] at h
    simp at h
  | ok code =>
    rw [hu] at h
    simp only at h
    simp only [h]
    refine ⟨rfl, rfl, rfl, ?_⟩
    simp [SetCodeInfo, increaseLastCodeID, List.lookup, types.NewCodeInfo]

/-- The results of a sequence of `StoreCode` calls are those the specification gives,
counting from the value of the code counter at the start. -/
theorem storeCodeSeq_spec (k : Keeper) (calls : List (sdk.AccAddress × Bytes)) :
    ∀ (s : State) (n : Nat), s.ctx.store.lastCodeID.getD 1 = n →
      n + calls.length < uint64Size →
      storeCodeSeq k calls s = storeCodeSpec k calls n := by
  induction calls with
  | nil => intro s n _ _; rfl
  | cons call rest ih =>
    intro s n hn hlen
    simp only [List.length_cons] at hlen
    cases hc : compileCode k call.2 with
    | error cause =>
      have hf := StoreCode_failure k call.1 call.2 s cause hc
      have hn1 : (StoreCode k call.1 call.2 s).1.ctx.store.lastCodeID.getD 1 = n := by
        rw [hf.2]; exact hn
      simp only [storeCodeSeq, storeCodeSpec, hc, hf.1]
      rw [ih (StoreCode k call.1 call.2 s).1 n hn1 (by omega)]
    | ok codeHash =>
      have hs := StoreCode_success k call.1 call.2 s codeHash hc
      have hmod : (n + 1) % uint64Size = n + 1 := Nat.mod_eq_of_lt (by omega)
      have hn1 : (StoreCode k call.1 call.2 s).1.ctx.store.lastCodeID.getD 1 = n + 1 := by
        rw [hs.2.2.1, hn, hmod]; rfl
      simp only [storeCodeSeq, storeCodeSpec, hc, hs.1, hn]
      rw [ih (StoreCode k call.1 call.2 s).1 (n + 1) hn1 (by omega)]

/-- The code ids the specification gives the uploads that compile count up from the
first id, one per such upload. -/
theorem storeCodeSpec_ids (k : Keeper) (calls : List (sdk.AccAddress × Bytes)) :
    ∀ n : Nat,
      ((storeCodeSpec k calls n).filter (fun r => r.2.isNone)).map (fun r => r.1) =
        List.range' n
          (calls.filter (fun call => (compileCode k call.2).toOption.isSome)).length := by
  induction calls with
  | nil => intro n; rfl
  | cons call rest ih =>
    intro n
    cases hc : compileCode k call.2 with
    | error cause =>
      have h1 : (Except.error cause : Except String Bytes).toOption.isSome = false := rfl
      simp only [storeCodeSpec, hc, List.filter_cons, Option.isNone_some, Bool.false_eq_true,
        if_false, h1]
      exact ih n
    | ok codeHash =>
      have h1 : (Except.ok codeHash : Except String Bytes).toOption.isSome = true := rfl
      simp only [storeCodeSpec, hc, List.filter_cons, Option.isNone_none, if_true,
        h1, List.map_cons, List.length_cons, List.range'_succ]
      rw [ih (n + 1)]

/-- C14: in every sequence of `StoreCode` calls that starts with no code counter stored
and is shorter than the 64-bit range, the results are those of the specification counted
from 1: the code ids returned by the uploads that decompress and compile are 1, 2, 3, ...
in order, one per such upload, so the k-th successful call returns k.  A call whose
upload decompresses and compiles returns the value of the counter without error, advances
the counter by one and stores the code record under the id returned.  A call whose
decompression or compilation fails returns code id 0 with `ErrCreateFailed` and leaves
the context as it is: no code record is stored and the counter does not move. -/
theorem StoreCode_ids_increase (k : Keeper) :
    (∀ (calls : List (sdk.AccAddress × Bytes)) (s : State),
      s.ctx.store.lastCodeID = none → calls.length + 1 < uint64Size →
      storeCodeSeq k calls s = storeCodeSpec k calls 1 ∧
        ((storeCodeSeq k calls s).filter (fun r => r.2.isNone)).map (fun r => r.1) =
          List.range' 1
            (calls.filter (fun call => (compileCode k call.2).toOption.isSome)).length) ∧
    (∀ (creator : sdk.AccAddress) (wasmCode code codeHash : Bytes) (s : State),
      k.uncompress wasmCode = .ok code → k.wasmerCreate code = .ok codeHash →
      (StoreCode k creator wasmCode s).2 = (s.ctx.store.lastCodeID.getD 1, none) ∧
        (StoreCode k creator wasmCode s).1.ctx.store.lastCodeID =
          some ((s.ctx.store.lastCodeID.getD 1 + 1) % uint64Size) ∧
        (StoreCode k creator wasmCode s).1.ctx.store.codeInfo.lookup
            (s.ctx.store.lastCodeID.getD 1) =
          some { CodeHash := codeHash, Creator := creator }) ∧
    (∀ (creator : sdk.AccAddress) (wasmCode : Bytes) (s : State) (cause : String),
      k.uncompress wasmCode = .error cause →
      (StoreCode k creator wasmCode s).2 = (0, some (sdk.Error.ErrCreateFailed cause)) ∧
        (StoreCode k creator wasmCode s).1.ctx = s.ctx) ∧
    (∀ (creator : sdk.AccAddress) (wasmCode code : Bytes) (s : State) (cause : String),
      k.uncompress wasmCode = .ok code → k.wasmerCreate code = .error cause →
      (StoreCode k creator wasmCode s).2 = (0, some (sdk.Error.ErrCreateFailed cause)) ∧
        (StoreCode k creator wasmCode s).1.ctx = s.ctx) := by
  refine ⟨?_, ?_, ?_, ?_⟩
  · intro calls s hs hlen
    have hseq := storeCodeSeq_spec k calls s 1 (by rw [hs]; rfl) (by omega)
    refine ⟨hseq, ?_⟩
    rw [hseq]
    exact storeCodeSpec_ids k calls 1
  · intro creator wasmCode code codeHash s hu hc
    have h := StoreCode_success k creator wasmCode s codeHash
      (by unfold compileCode; rw [hu]; exact hc)
    exact ⟨h.1, h.2.2.1, h.2.2.2⟩
  · intro creator wasmCode s cause hu
    exact StoreCode_failure k creator wasmCode s cause (by unfold compileCode; rw [hu])
  · intro creator wasmCode code s cause hu hc
    exact StoreCode_failure k creator wasmCode s cause
      (by unfold compileCode; rw [hu]; exact hc)

/-- C14, at a concrete input: four uploads, of which the second fails to compile and the
third fails to decompress; the other two get the code ids 1 and 2, and the first of them
leaves the counter at 2 and its record under the id 1. -/
theorem StoreCode_ids_increase_witness :
    (storeCodeSeq demo.keeper
          [(demo.alice, [1]), (demo.bob, []), (demo.alice, [31, 2]), (demo.bob, [5, 6])]
          demo.fresh =
        [(1, none), (0, some (sdk.Error.ErrCreateFailed "empty code")),
         (0, some (sdk.Error.ErrCreateFailed "bad gzip")), (2, none)] ∧
      ((storeCodeSeq demo.keeper
          [(demo.alice, [1]), (demo.bob, []), (demo.alice, [31, 2]), (demo.bob, [5, 6])]
          demo.fresh).filter (fun r => r.2.isNone)).map (fun r => r.1) = [1, 2]) ∧
    ((StoreCode demo.keeper demo.alice [1] demo.fresh).2 = (1, none) ∧
      (StoreCode demo.keeper demo.alice [1] demo.fresh).1.ctx.store.lastCodeID = some 2 ∧
      (StoreCode demo.keeper demo.alice [1] demo.fresh).1.ctx.store.codeInfo.lookup 1 =
        some { CodeHash := [1], Creator := demo.alice }) ∧
    ((StoreCode demo.keeper demo.alice [31, 2] demo.fresh).2 =
        (0, some (sdk.Error.ErrCreateFailed "bad gzip")) ∧
      (StoreCode demo.keeper demo.alice [31, 2] demo.fresh).1.ctx = demo.fresh.ctx) ∧
    ((StoreCode demo.keeper demo.bob [] demo.fresh).2 =
        (0, some (sdk.Error.ErrCreateFailed "empty code")) ∧
      (StoreCode demo.keeper demo.bob [] demo.fresh).1.ctx = demo.fresh.ctx) :=
  ⟨(StoreCode_ids_increase demo.keeper).1 _ demo.fresh rfl (by decide),
   (StoreCode_ids_increase demo.keeper).2.1 demo.alice [1] [1] [1] demo.fresh rfl rfl,
   (StoreCode_ids_increase demo.keeper).2.2.1 demo.alice [31, 2] demo.fresh "bad gzip" rfl,
   (StoreCode_ids_increase demo.keeper).2.2.2 demo.bob [] [] demo.fresh "empty code" rfl rfl⟩

/-- C15, as the claim states it, fails: with limit 2^63, nothing consumed, rate 100 and
ceiling 900000 the 64-bit product wraps to 0 and `gasForContract` returns 0, while the
minimum of the exact product and the ceiling is 900000. -/
theorem gasForContract_wraps :
    gasForContract demo.keeper
        { demo.state.ctx with gas := { limit := 9223372036854775808, consumed := 0 } } = 0 ∧
      min ((9223372036854775808 - 0) * demo.keeper.GasMultiplier) demo.keeper.MaxContractGas =
        900000 := by
  decide

/-- For a meter with 64-bit limit `L` and consumed gas `C ≤ L`, `gasForContract` is the
minimum of the 64-bit product `((L - C) * r) mod 2^64` and the ceiling. -/
theorem gasForContract_eq (k : Keeper) (ctx : Ctx)
    (hL : ctx.gas.limit < uint64Size) (hC : ctx.gas.consumed ≤ ctx.gas.limit) :
    gasForContract k ctx =
      min (((ctx.gas.limit - ctx.gas.consumed) * k.GasMultiplier) % uint64Size)
        k.MaxContractGas := by
  have hsub : (ctx.gas.limit + uint64Size - ctx.gas.consumed) % uint64Size =
      ctx.gas.limit - ctx.gas.consumed := by
    have : ctx.gas.limit + uint64Size - ctx.gas.consumed =
        (ctx.gas.limit - ctx.gas.consumed) + uint64Size := by omega
    rw [this, Nat.add_mod_right]
    exact Nat.mod_eq_of_lt (by omega)
  unfold gasForContract
  simp only [hsub]
  split
  · rename_i h
    exact (Nat.min_eq_right (Nat.le_of_lt h)).symm
  · rename_i h
    exact (Nat.min_eq_left (Nat.le_of_not_lt h)).symm

/-- C15, amended: for a gas meter with limit `L` and consumed gas `C ≤ L`, a rate `r` and
a ceiling `M`, all 64-bit values, `gasForContract` returns the minimum of the 64-bit
product `((L - C) * r) mod 2^64` and `M`; that is the minimum of the exact product and
`M` whenever the exact product is below 2^64. -/
theorem gasForContract_min (k : Keeper) (ctx : Ctx)
    (hL : ctx.gas.limit < uint64Size) (hC : ctx.gas.consumed ≤ ctx.gas.limit) :
    gasForContract k ctx =
        min (((ctx.gas.limit - ctx.gas.consumed) * k.GasMultiplier) % uint64Size)
          k.MaxContractGas ∧
      ((ctx.gas.limit - ctx.gas.consumed) * k.GasMultiplier < uint64Size →
        gasForContract k ctx =
          min ((ctx.gas.limit - ctx.gas.consumed) * k.GasMultiplier) k.MaxContractGas) := by
  have hmain := gasForContract_eq k ctx hL hC
  refine ⟨hmain, fun hlt => ?_⟩
  rw [hmain, Nat.mod_eq_of_lt hlt]

/-- C15 amended, at a concrete input: limit 1000, nothing consumed, rate 100, ceiling
900000. -/
theorem gasForContract_min_witness :
    gasForContract demo.keeper demo.state.ctx =
        min (((1000 - 0) * 100) % uint64Size) 900000 ∧
      ((1000 - 0) * 100 < uint64Size →
        gasForContract demo.keeper demo.state.ctx = min ((1000 - 0) * 100) 900000) :=
  gasForContract_min demo.keeper demo.state.ctx (by decide) (by decide)

end keeper

namespace keeper

/-- Reading back the uvarint of a value that fits in the bytes written returns the value,
whatever follows the encoding. -/
theorem uvarintValue_loop (steps : Nat) :
    ∀ (x : Nat) (pad : List Nat), x < 128 ^ (steps + 1) →
      uvarintValue (uvarintLoop steps x ++ pad) = x := by
  induction steps with
  | zero =>
    intro x pad hx
    simp only [Nat.zero_add, pow_one] at hx
    have h256 : x % 256 = x := Nat.mod_eq_of_lt (by omega)
    simp only [uvarintLoop, h256, List.singleton_append, uvarintValue]
    rw [if_neg (by omega)]
  | succ n ih =>
    intro x pad hx
    unfold uvarintLoop
    by_cases h : x ≥ 128
    · simp only [h, if_true, List.cons_append, uvarintValue]
      have hdiv : x / 128 < 128 ^ (n + 1) := by
        rw [Nat.div_lt_iff_lt_mul (by norm_num)]
        calc x < 128 ^ (n + 1 + 1) := hx
          _ = 128 ^ (n + 1) * 128 := by rw [pow_succ]
      rw [ih (x / 128) pad hdiv, if_pos (by omega)]
      omega
    · simp only [h, if_false, List.singleton_append, uvarintValue]

/-- The loop of `PutUvarint` writes at most one byte more than its bound. -/
theorem uvarintLoop_length (steps : Nat) : ∀ x : Nat, (uvarintLoop steps x).length ≤ steps + 1 := by
  induction steps with
  | zero => intro x; simp [uvarintLoop]
  | succ n ih =>
    intro x
    unfold uvarintLoop
    split
    · simp only [List.length_cons]
      have := ih (x / 128)
      omega
    · simp

/-- The buffer `addrFromUint64` hashes has 20 bytes. -/
theorem addrBuffer_length (id : Nat) : (addrBuffer id).length = 20 := by
  have := uvarintLoop_length 9 id
  simp only [addrBuffer, PutUvarint, List.length_cons, List.length_append, List.length_replicate]
  omega

/-- The buffer `addrFromUint64` hashes determines the 64-bit id it was built from. -/
theorem addrBuffer_injective (id1 id2 : Nat) (h1 : id1 < uint64Size) (h2 : id2 < uint64Size)
    (h : addrBuffer id1 = addrBuffer id2) : id1 = id2 := by
  have hb : uint64Size ≤ 128 ^ (9 + 1) := by decide
  simp only [addrBuffer, List.cons.injEq, true_and] at h
  have e1 := uvarintValue_loop 9 id1 (List.replicate (19 - (PutUvarint id1).length) 0)
    (lt_of_lt_of_le h1 hb)
  have e2 := uvarintValue_loop 9 id2 (List.replicate (19 - (PutUvarint id2).length) 0)
    (lt_of_lt_of_le h2 hb)
  unfold PutUvarint at h
  unfold PutUvarint at e1 e2
  rw [← e1, ← e2, h]

/-- Below 2^32 the contract id is the exact value `codeID * 2^32 + instanceID`. -/
theorem contractID_exact (codeID instanceID : Nat) (hc : codeID < 4294967296)
    (hi : instanceID < 4294967296) :
    contractID codeID instanceID = codeID * 4294967296 + instanceID := by
  unfold contractID uint64Size
  rw [Nat.mod_eq_of_lt (by omega), Nat.mod_eq_of_lt (by omega)]

/-- The instance ids drawn by a sequence of `generateContractAddress` calls count up from
the value of the instance counter at the start, and each address is the hash of the
buffer built from the call's code id and instance id. -/
theorem generateSeq_ids (k : Keeper) (codeIDs : List Nat) :
    ∀ (st : WasmStore) (n : Nat), st.lastInstanceID.getD 1 = n →
      n + codeIDs.length < uint64Size →
      generateSeq k codeIDs st =
        (codeIDs.zip (List.range' n codeIDs.length)).map
          (fun p => (p.2, k.AddressHash (addrBuffer (contractID p.1 p.2)))) := by
  induction codeIDs with
  | nil => intro st n _ _; simp [generateSeq]
  | cons c rest ih =>
    intro st n hn hlen
    simp only [List.length_cons] at hlen
    have hmod : (n + 1) % uint64Size = n + 1 := Nat.mod_eq_of_lt (by omega)
    have hnext : (generateContractAddress k st c).1.lastInstanceID.getD 1 = n + 1 := by
      rw [(generateContractAddress_store k st c).1, hn, hmod]
      rfl
    have := ih (generateContractAddress k st c).1 (n + 1) hnext (by omega)
    simp only [generateSeq, this, List.length_cons, List.range'_succ, List.zip_cons_cons,
      List.map_cons, (generateContractAddress_store k st c).2, increaseLastInstanceID, hn]

/-- C17: starting with no instance counter stored, the successive calls of
`generateContractAddress` (fewer than the 64-bit range) draw the instance ids 1, 2, 3, ...
in order from the one counter, each call returning the hash of the buffer built from its
code id and its instance id.  For code ids and instance ids below 2^32, two different
pairs give different 64-bit contract ids `codeID * 2^32 + instanceID` and different
20-byte buffers. -/
theorem generateContractAddress_unique (k : Keeper) :
    (∀ (codeIDs : List Nat) (st : WasmStore), st.lastInstanceID = none →
      codeIDs.length + 1 < uint64Size →
      generateSeq k codeIDs st =
        (codeIDs.zip (List.range' 1 codeIDs.length)).map
          (fun p => (p.2, k.AddressHash (addrBuffer (contractID p.1 p.2))))) ∧
    (∀ c1 i1 c2 i2 : Nat, c1 < 4294967296 → i1 < 4294967296 → c2 < 4294967296 →
      i2 < 4294967296 → (c1, i1) ≠ (c2, i2) →
      contractID c1 i1 = c1 * 4294967296 + i1 ∧
        contractID c1 i1 ≠ contractID c2 i2 ∧
        addrBuffer (contractID c1 i1) ≠ addrBuffer (contractID c2 i2) ∧
        (addrBuffer (contractID c1 i1)).length = 20) := by
  constructor
  · intro codeIDs st hst hlen
    exact generateSeq_ids k codeIDs st 1 (by rw [hst]; rfl) (by omega)
  · intro c1 i1 c2 i2 hc1 hi1 hc2 hi2 hne
    have e1 := contractID_exact c1 i1 hc1 hi1
    have e2 := contractID_exact c2 i2 hc2 hi2
    have hid : contractID c1 i1 ≠ contractID c2 i2 := by
      rw [e1, e2]
      intro h
      apply hne
      have hc : c1 = c2 := by omega
      have hi : i1 = i2 := by omega
      rw [hc, hi]
    refine ⟨e1, hid, ?_, addrBuffer_length _⟩
    intro hbuf
    apply hid
    apply addrBuffer_injective _ _ _ _ hbuf
    · rw [e1]; unfold uint64Size; omega
    · rw [e2]; unfold uint64Size; omega

/-- C17, at a concrete input: four instantiations, of the codes 1, 1, 2 and 7; and the
pairs (1, 2) and (2, 1). -/
theorem generateContractAddress_unique_witness :
    generateSeq demo.keeper [1, 1, 2, 7] demo.fresh.ctx.store =
        ([1, 1, 2, 7].zip (List.range' 1 4)).map
          (fun p => (p.2, demo.keeper.AddressHash (addrBuffer (contractID p.1 p.2)))) ∧
      (contractID 1 2 = 1 * 4294967296 + 2 ∧
        contractID 1 2 ≠ contractID 2 1 ∧
        addrBuffer (contractID 1 2) ≠ addrBuffer (contractID 2 1) ∧
        (addrBuffer (contractID 1 2)).length = 20) :=
  ⟨(generateContractAddress_unique demo.keeper).1 [1, 1, 2, 7] demo.fresh.ctx.store rfl
      (by decide),
   (generateContractAddress_unique demo.keeper).2 1 2 2 1 (by decide) (by decide) (by decide)
      (by decide) (by decide)⟩

end keeper

namespace keeper

/-! ## Gas reconciliation -/

/-- With a positive rate, `consumeGas` charges the meter `gas / rate` through `ConsumeGas`
and records the charge; it returns unless the meter panics. -/
theorem consumeGas_eq (k : Keeper) (hr : 0 < k.GasMultiplier) (gas : Nat) (s : State) :
    consumeGas k gas s =
      match (ConsumeGas s.ctx.gas (gas / k.GasMultiplier)).2 with
      | some p =>
        .panic
          { ctx := { s.ctx with gas := (ConsumeGas s.ctx.gas (gas / k.GasMultiplier)).1 },
            trace := s.trace ++ [Event.consumeGas (gas / k.GasMultiplier)] } p
      | none =>
        .ret
          { ctx := { s.ctx with gas := (ConsumeGas s.ctx.gas (gas / k.GasMultiplier)).1 },
            trace := s.trace ++ [Event.consumeGas (gas / k.GasMultiplier)] } () := by
  unfold consumeGas
  rw [if_neg (Nat.pos_iff_ne_zero.mp hr)]

/-- C16: with a positive rate `r`, once the VM invocation of an `ExecuteContract` or an
`InstantiateContract` call has returned successfully with gas usage `g`, the call charges
the gas meter `g / r` (rounded down) through one `ConsumeGas` call, recorded once in the
trace right after the VM call, and only then dispatches the emitted messages: the outcome
of the call is the outcome of the dispatch started in the charged state (or the panic of
the meter).  The charge adds exactly `g / r` to the gas consumed, short of 64-bit
overflow.  A dispatch that returns, with or without error, leaves the limit of the meter
as it is and the gas consumed no lower than at its start, provided no handler refunds
gas: the charge stays in place when dispatch fails. -/
theorem consumeGas_before_dispatch (k : Keeper) (hr : 0 < k.GasMultiplier) :
    (∀ (fuel : Nat) (contractAddress caller : sdk.AccAddress) (coins : sdk.Coins) (msg : Bytes)
        (s : State) (contractInfo : types.ContractInfo) (codeInfo : types.CodeInfo)
        (bank1 : Bank) (kv1 : KVStore) (res : wasmTypes.Result),
      s.ctx.store.contractInfo.lookup contractAddress = some contractInfo →
      s.ctx.store.codeInfo.lookup contractInfo.CodeID = some codeInfo →
      k.SendCoins caller contractAddress coins s.ctx.bank = (bank1, none) →
      k.wasmerExecute codeInfo.CodeHash
          (types.NewWasmAPIParams caller coins (k.GetAccount bank1 contractAddress)) msg
          (contractStoreView s.ctx.store contractAddress)
          (gasForContract k { s.ctx with bank := bank1 }) = (kv1, .ok res) →
      ExecuteContract k fuel contractAddress caller coins msg s =
        match (ConsumeGas s.ctx.gas (res.GasUsed / k.GasMultiplier)).2 with
        | some p =>
          .panic
            { ctx :=
                { bank := bank1
                  store := writeContractStore s.ctx.store contractAddress kv1
                  gas := (ConsumeGas s.ctx.gas (res.GasUsed / k.GasMultiplier)).1 }
              trace := s.trace ++
                [Event.sendCoins caller contractAddress coins,
                 Event.wasmerExecute codeInfo.CodeHash
                   (types.NewWasmAPIParams caller coins (k.GetAccount bank1 contractAddress))
                   msg (gasForContract k { s.ctx with bank := bank1 }),
                 Event.consumeGas (res.GasUsed / k.GasMultiplier)] } p
        | none =>
          dispatchMessages k fuel (k.GetAccount bank1 contractAddress) res.Messages
            { ctx :=
                { bank := bank1
                  store := writeContractStore s.ctx.store contractAddress kv1
                  gas := (ConsumeGas s.ctx.gas (res.GasUsed / k.GasMultiplier)).1 }
              trace := s.trace ++
                [Event.sendCoins caller contractAddress coins,
                 Event.wasmerExecute codeInfo.CodeHash
                   (types.NewWasmAPIParams caller coins (k.GetAccount bank1 contractAddress))
                   msg (gasForContract k { s.ctx with bank := bank1 }),
                 Event.consumeGas (res.GasUsed / k.GasMultiplier)] }) ∧
    (∀ (fuel : Nat) (creator : sdk.AccAddress) (codeID : Nat) (initMsg : Bytes)
        (deposit : sdk.Coins) (s : State) (st0 : WasmStore) (addr : sdk.AccAddress)
        (bank1 : Bank) (codeInfo : types.CodeInfo) (kv1 : KVStore) (res : wasmTypes.Result),
      generateContractAddress k s.ctx.store codeID = (st0, addr) →
      k.GetAccount s.ctx.bank addr = none →
      k.SendCoins creator addr deposit s.ctx.bank = (bank1, none) →
      s.ctx.store.codeInfo.lookup codeID = some codeInfo →
      k.wasmerInstantiate codeInfo.CodeHash
          (types.NewWasmAPIParams creator deposit (k.GetAccount bank1 addr)) initMsg
          (contractStoreView st0 addr)
          (gasForContract k { bank := bank1, store := st0, gas := s.ctx.gas }) =
        (kv1, .ok res) →
      InstantiateContract k fuel creator codeID initMsg deposit s =
        match (ConsumeGas s.ctx.gas (res.GasUsed / k.GasMultiplier)).2 with
        | some p =>
          .panic
            { ctx :=
                { bank := bank1
                  store := writeContractStore st0 addr kv1
                  gas := (ConsumeGas s.ctx.gas (res.GasUsed / k.GasMultiplier)).1 }
              trace := s.trace ++
                [Event.sendCoins creator addr deposit,
                 Event.wasmerInstantiate codeInfo.CodeHash
                   (types.NewWasmAPIParams creator deposit (k.GetAccount bank1 addr)) initMsg
                   (gasForContract k { bank := bank1, store := st0, gas := s.ctx.gas }),
                 Event.consumeGas (res.GasUsed / k.GasMultiplier)] } p
        | none =>
          match dispatchMessages k fuel (k.GetAccount bank1 addr) res.Messages
            { ctx :=
                { bank := bank1
                  store := writeContractStore st0 addr kv1
                  gas := (ConsumeGas s.ctx.gas (res.GasUsed / k.GasMultiplier)).1 }
              trace := s.trace ++
                [Event.sendCoins creator addr deposit,
                 Event.wasmerInstantiate codeInfo.CodeHash
                   (types.NewWasmAPIParams creator deposit (k.GetAccount bank1 addr)) initMsg
                   (gasForContract k { bank := bank1, store := st0, gas := s.ctx.gas }),
                 Event.consumeGas (res.GasUsed / k.GasMultiplier)] } with
          | .ret s4 (some err) => .ret s4 (addr, some err)
          | .panic s4 p => .panic s4 p
          | .outOfFuel => .outOfFuel
          | .ret s4 none =>
            .ret
              { ctx :=
                  { s4.ctx with
                    store := SetContractInfo s4.ctx.store addr
                      (types.NewContractInfo codeID addr creator initMsg) },
                trace := s4.trace }
              (addr, none)) ∧
    (∀ (meter : sdk.GasMeter) (amount : Nat), meter.consumed + amount < uint64Size →
      (ConsumeGas meter amount).1 =
        { limit := meter.limit, consumed := meter.consumed + amount }) ∧
    (HandlersNeverRefund k →
      ∀ (fuel : Nat) (contract : Option exported.Account) (msgs : List wasmTypes.CosmosMsg)
        (s s1 : State) (e : Option sdk.Error),
      dispatchMessages k fuel contract msgs s = .ret s1 e →
      s1.ctx.gas.limit = s.ctx.gas.limit ∧ s.ctx.gas.consumed ≤ s1.ctx.gas.consumed) := by
  refine ⟨?_, ?_, ?_, ?_⟩
  · intro fuel contractAddress caller coins msg s contractInfo codeInfo bank1 kv1 res
      hcontract hcode hsend hvm
    unfold ExecuteContract ExecuteContractWith getContractDetails dispatchMessages
    simp only [hcontract, hcode, hsend, hvm, consumeGas_eq k hr, List.append_assoc,
      List.singleton_append]
    cases (ConsumeGas s.ctx.gas (res.GasUsed / k.GasMultiplier)).2 <;> rfl
  · intro fuel creator codeID initMsg deposit s st0 addr bank1 codeInfo kv1 res
      hgen hfree hsend hcode hvm
    have hcode0 : st0.codeInfo.lookup codeID = some codeInfo := by
      have := (generateContractAddress_store k s.ctx.store codeID).1
      rw [hgen] at this
      simp only at this
      rw [this]
      exact hcode
    unfold InstantiateContract InstantiateContractWith dispatchMessages
    simp only [hgen, hfree, hsend, hcode0, hvm, consumeGas_eq k hr, List.append_assoc,
      List.singleton_append]
    cases (ConsumeGas s.ctx.gas (res.GasUsed / k.GasMultiplier)).2 <;> rfl
  · intro meter amount h
    unfold ConsumeGas
    rw [if_neg (by omega)]
    split <;> rfl
  · intro hk fuel contract msgs s s1 e h
    have := dispatchMessagesWith_keeps (gas_invariant k hk) (nestedExecute k fuel)
      (nestedExecute_keeps (gas_invariant k hk) fuel) contract msgs s
    unfold dispatchMessages at h
    rw [h] at this
    exact this

end keeper

namespace keeper

/-! ## Queries and the frame of execution -/

/-- Removing the entries of one key from an association list does not change what is
found under another key. -/
theorem lookup_filter_ne {β : Type} (a b : sdk.AccAddress) (hab : b ≠ a)
    (l : List (sdk.AccAddress × β)) :
    (l.filter (fun p => p.1 != a)).lookup b = l.lookup b := by
  induction l with
  | nil => rfl
  | cons p rest ih =>
    by_cases hp : p.1 = a
    · have hbp : (b == p.1) = false := by
        rw [hp]
        exact beq_false_of_ne hab
      have hf : (p.1 != a) = false := by simp [hp]
      rw [List.filter_cons, hf]
      simp only [Bool.false_eq_true, if_false]
      rw [ih]
      cases p with
      | mk p1 p2 =>
        simp only at hbp
        simp only [List.lookup, hbp]
    · have hf : (p.1 != a) = true := by simp [hp]
      rw [List.filter_cons, hf]
      simp only [if_true]
      cases p with
      | mk p1 p2 =>
        simp only [List.lookup]
        cases hb : (b == p1) with
        | true => rfl
        | false => exact ih

/-- The private region of a contract, read after a write through its view, is what was
written; the regions of the other contracts and the records are as before. -/
theorem writeContractStore_view (st : WasmStore) (addr : sdk.AccAddress) (kv : KVStore) :
    contractStoreView (writeContractStore st addr kv) addr = kv ∧
    (∀ other, other ≠ addr →
      contractStoreView (writeContractStore st addr kv) other = contractStoreView st other) ∧
    records (writeContractStore st addr kv) = records st := by
  refine ⟨?_, ?_, rfl⟩
  · simp [contractStoreView, writeContractStore, List.lookup]
  · intro other hne
    have hb : (other == addr) = false := beq_false_of_ne hne
    simp only [contractStoreView, writeContractStore, List.lookup, hb]
    rw [lookup_filter_ne addr other hne]

/-- A charge within the limit of a 64-bit meter adds to the gas consumed and does not
panic. -/
theorem ConsumeGas_within (g : sdk.GasMeter) (amount : Nat) (hL : g.limit < uint64Size)
    (h : g.consumed + amount ≤ g.limit) :
    ConsumeGas g amount = ({ g with consumed := g.consumed + amount }, none) := by
  unfold ConsumeGas
  rw [if_neg (by omega), if_neg (by omega)]

/-- Two charges within the limit of a 64-bit meter add to the gas consumed and do not
panic. -/
theorem chargeTwice_within (g : sdk.GasMeter) (first second : Nat) (hL : g.limit < uint64Size)
    (h : g.consumed + first + second ≤ g.limit) :
    chargeTwice g first second =
      ({ g with consumed := g.consumed + first + second }, none) := by
  unfold chargeTwice
  rw [ConsumeGas_within g first hL (by omega)]
  exact ConsumeGas_within { g with consumed := g.consumed + first } second hL h

/-- On a store that holds the record of the contract and the record of its code, the
metered `getContractDetails` started on a fresh 64-bit meter that pays for the two reads
finds the code record and the store view, and leaves the charge of the two reads on the
meter. -/
theorem getContractDetailsMetered_found (k : Keeper) (st : WasmStore)
    (contractAddress : sdk.AccAddress) (q : Nat) (contractInfo : types.ContractInfo)
    (codeInfo : types.CodeInfo) (hq : q < uint64Size)
    (hcontract : st.contractInfo.lookup contractAddress = some contractInfo)
    (hcode : st.codeInfo.lookup contractInfo.CodeID = some codeInfo)
    (hreads : detailsReadGas k contractInfo codeInfo ≤ q) :
    getContractDetailsMetered k { limit := q, consumed := 0 } st contractAddress =
      ({ limit := q, consumed := detailsReadGas k contractInfo codeInfo },
        .found codeInfo (contractStoreView st contractAddress)) := by
  unfold detailsReadGas at hreads ⊢
  unfold getContractDetailsMetered chargeRead
  simp only [hcontract, hcode, Option.map_some', Option.getD_some]
  rw [chargeTwice_within _ _ _ hq (by simp only; omega)]
  simp only
  rw [chargeTwice_within _ _ _ hq (by simp only; omega)]
  simp only [Nat.zero_add, Nat.add_assoc]

/-- On a store that holds the record of the contract and the record of its code, the
metered `getContractDetails` either panics on the charge of a read or finds the code
record and the store view of the contract. -/
theorem getContractDetailsMetered_existing (k : Keeper) (meter : sdk.GasMeter) (st : WasmStore)
    (contractAddress : sdk.AccAddress) (contractInfo : types.ContractInfo)
    (codeInfo : types.CodeInfo)
    (hcontract : st.contractInfo.lookup contractAddress = some contractInfo)
    (hcode : st.codeInfo.lookup contractInfo.CodeID = some codeInfo) :
    (∃ p, (getContractDetailsMetered k meter st contractAddress).2 = .panicked p) ∨
      (getContractDetailsMetered k meter st contractAddress).2 =
        .found codeInfo (contractStoreView st contractAddress) := by
  unfold getContractDetailsMetered
  simp only [hcontract, hcode, Option.map_some', Option.getD_some]
  cases h1 : (chargeRead meter (k.contractInfoLen contractInfo)).2 with
  | some p => exact Or.inl ⟨p, rfl⟩
  | none =>
    simp only
    cases h2 : (chargeRead (chargeRead meter (k.contractInfoLen contractInfo)).1
        (k.codeInfoLen codeInfo)).2 with
    | some p => exact Or.inl ⟨p, rfl⟩
    | none => exact Or.inr rfl

/-- Reads leave the store view as it is, whether or not their charges panic. -/
theorem runOps_reads (ops : List StoreOp) (h : ∀ op ∈ ops, ∃ key, op = StoreOp.Get key) :
    ∀ (meter : sdk.GasMeter) (kv : KVStore), (runOps meter kv ops).2.1 = kv := by
  induction ops with
  | nil => intro meter kv; rfl
  | cons op rest ih =>
    intro meter kv
    obtain ⟨key, rfl⟩ := h op (List.mem_cons_self _ _)
    have ih1 := ih (fun op1 hop => h op1 (List.mem_cons_of_mem _ hop))
    unfold runOps
    simp only [meteredOp]
    generalize chargeRead meter ((kv.lookup key).getD []).length = c
    obtain ⟨m1, p⟩ := c
    cases p with
    | some p => rfl
    | none => exact ih1 m1 kv

/-- The method `consumeGas` returns or panics, in a state whose balances and store are
those it was started in. -/
theorem consumeGas_frame (k : Keeper) (gas : Nat) (s : State) :
    ∃ s1 : State,
      ((consumeGas k gas s = .ret s1 ()) ∨ (∃ p, consumeGas k gas s = .panic s1 p)) ∧
      s1.ctx.bank = s.ctx.bank ∧ s1.ctx.store = s.ctx.store := by
  unfold consumeGas
  by_cases h0 : k.GasMultiplier = 0
  · rw [if_pos h0]
    exact ⟨s, Or.inr ⟨_, rfl⟩, rfl, rfl⟩
  · rw [if_neg h0]
    simp only
    cases (ConsumeGas s.ctx.gas (gas / k.GasMultiplier)).2 with
    | some p => exact ⟨_, Or.inr ⟨p, rfl⟩, rfl, rfl⟩
    | none => exact ⟨_, Or.inl rfl, rfl, rfl⟩

/-- C18, as the claim states it, fails: `queryToContract` hands the VM the contract's own
store view, and a VM whose query entrypoint writes through it changes the private region.
Here the query gas limit pays for the two reads of the records, the write of the VM and
the gas the VM reports; the call returns the query result, and the region of the first
contract, empty before the query, holds the entry the VM wrote after it. -/
theorem queryToContract_region_written :
    ∃ s1 : State,
      queryToContract demo.writingKeeper demo.c1 [9] demo.state = .ret s1 (.ok [9]) ∧
      contractStoreView demo.state.ctx.store demo.c1 = [] ∧
      contractStoreView s1.ctx.store demo.c1 = [([9], [1])] :=
  ⟨_, rfl, by decide, by decide⟩

/-- C18, amended: for a `queryToContract` call on an existing contract, the keeper hands
the VM the contract's own store view, through which the VM reads and writes, each access
charged to the query's gas meter.  When a read of the records runs out of gas the call
panics in the input state, before the VM is invoked.  Otherwise the call returns or
panics in a state whose balances are those of the input state and whose store is the
input store with the contract's private region as the VM's charged accesses left it.  So
the region after the call is what those accesses made of the region before, identical to
it whenever the VM only reads; the regions of the other contracts and the records are the
same. -/
theorem queryToContract_region (k : Keeper) (contractAddr : sdk.AccAddress) (key : Bytes)
    (s : State) (contractInfo : types.ContractInfo) (codeInfo : types.CodeInfo)
    (ops : List StoreOp) (out : Except String (Bytes × Nat))
    (hcontract : s.ctx.store.contractInfo.lookup contractAddr = some contractInfo)
    (hcode : s.ctx.store.codeInfo.lookup contractInfo.CodeID = some codeInfo)
    (hvm : k.wasmerQuery codeInfo.CodeHash key (contractStoreView s.ctx.store contractAddr)
        (gasForContract k
          { s.ctx with
            gas :=
              (getContractDetailsMetered k { limit := k.queryGasLimit, consumed := 0 }
                s.ctx.store contractAddr).1 }) = (ops, out)) :
    (∀ p,
      (getContractDetailsMetered k { limit := k.queryGasLimit, consumed := 0 } s.ctx.store
          contractAddr).2 = .panicked p →
      queryToContract k contractAddr key s = .panic s p) ∧
    ((∀ p,
        (getContractDetailsMetered k { limit := k.queryGasLimit, consumed := 0 } s.ctx.store
          contractAddr).2 ≠ .panicked p) →
      ∃ s1 : State,
        ((∃ a, queryToContract k contractAddr key s = .ret s1 a) ∨
          (∃ p, queryToContract k contractAddr key s = .panic s1 p)) ∧
        s1.ctx.bank = s.ctx.bank ∧
        s1.ctx.store =
          writeContractStore s.ctx.store contractAddr
            (runOps
              (getContractDetailsMetered k { limit := k.queryGasLimit, consumed := 0 }
                s.ctx.store contractAddr).1
              (contractStoreView s.ctx.store contractAddr) ops).2.1) ∧
    (∀ kv1 : KVStore,
      contractStoreView (writeContractStore s.ctx.store contractAddr kv1) contractAddr = kv1 ∧
      (∀ other, other ≠ contractAddr →
        contractStoreView (writeContractStore s.ctx.store contractAddr kv1) other =
          contractStoreView s.ctx.store other) ∧
      records (writeContractStore s.ctx.store contractAddr kv1) = records s.ctx.store) ∧
    ((∀ op ∈ ops, ∃ key1, op = StoreOp.Get key1) →
      (runOps
          (getContractDetailsMetered k { limit := k.queryGasLimit, consumed := 0 }
            s.ctx.store contractAddr).1
          (contractStoreView s.ctx.store contractAddr) ops).2.1 =
        contractStoreView s.ctx.store contractAddr) := by
  refine ⟨?_, ?_, fun kv1 => writeContractStore_view s.ctx.store contractAddr kv1,
    fun h => runOps_reads ops h _ _⟩
  · intro p hp
    unfold queryToContract
    generalize getContractDetailsMetered k { limit := k.queryGasLimit, consumed := 0 }
      s.ctx.store contractAddr = d at hp
    obtain ⟨m, d2⟩ := d
    simp only at hp
    subst hp
    rfl
  · intro hnp
    have hex := getContractDetailsMetered_existing k { limit := k.queryGasLimit, consumed := 0 }
      s.ctx.store contractAddr contractInfo codeInfo hcontract hcode
    unfold queryToContract
    generalize getContractDetailsMetered k { limit := k.queryGasLimit, consumed := 0 }
      s.ctx.store contractAddr = d at hnp hex hvm
    obtain ⟨meter1, d2⟩ := d
    simp only at hnp hex hvm
    rcases hex with ⟨p, hp⟩ | hfound
    · exact absurd hp (hnp p)
    · subst hfound
      simp only [hvm]
      cases hrun : (runOps meter1 (contractStoreView s.ctx.store contractAddr) ops).2.2 with
      | some p => exact ⟨_, Or.inr ⟨p, rfl⟩, rfl, rfl⟩
      | none =>
        simp only
        cases out with
        | error qErr => exact ⟨_, Or.inl ⟨_, rfl⟩, rfl, rfl⟩
        | ok a =>
          simp only
          obtain ⟨q2, hq2, hbank, hstore⟩ := consumeGas_frame k a.2
            { ctx :=
                { bank := s.ctx.bank
                  store :=
                    writeContractStore s.ctx.store contractAddr
                      (runOps meter1 (contractStoreView s.ctx.store contractAddr) ops).2.1
                  gas := (runOps meter1 (contractStoreView s.ctx.store contractAddr) ops).1 }
              trace := s.trace ++
                [Event.wasmerQuery codeInfo.CodeHash key
                  (gasForContract k { s.ctx with gas := meter1 })] }
          rcases hq2 with hret | ⟨p, hpanic⟩
          · rw [hret]
            exact ⟨_, Or.inl ⟨_, rfl⟩, hbank, hstore⟩
          · rw [hpanic]
            exact ⟨_, Or.inr ⟨p, rfl⟩, hbank, hstore⟩

/-- C18 amended, at a concrete input: a query of the first contract with a VM that reads
one key of the view.  The reads of the records are paid for, so the call returns or
panics with the balances and the region of the contract as they were. -/
theorem queryToContract_region_witness :
    (∃ s1 : State,
      ((∃ a, queryToContract demo.keeper demo.c1 [9] demo.state = .ret s1 a) ∨
        (∃ p, queryToContract demo.keeper demo.c1 [9] demo.state = .panic s1 p)) ∧
      s1.ctx.bank = demo.state.ctx.bank ∧
      s1.ctx.store = writeContractStore demo.state.ctx.store demo.c1 []) ∧
    (runOps { limit := 5000, consumed := 2075 } [] [StoreOp.Get [9]]).2.1 =
      contractStoreView demo.state.ctx.store demo.c1 :=
  ⟨(queryToContract_region demo.keeper demo.c1 [9] demo.state ⟨1, demo.c1, demo.alice, []⟩
      ⟨[1], demo.alice⟩ [StoreOp.Get [9]] (.ok ([9], 300)) (by decide) (by decide) rfl).2.1
      (fun p h => by
        have h1 : Details.found ⟨[1], demo.alice⟩ [] = Details.panicked p := h
        cases h1),
   (queryToContract_region demo.keeper demo.c1 [9] demo.state ⟨1, demo.c1, demo.alice, []⟩
      ⟨[1], demo.alice⟩ [StoreOp.Get [9]] (.ok ([9], 300)) (by decide) (by decide) rfl).2.2.2
      (fun op hop => ⟨[9], List.mem_singleton.mp hop⟩)⟩

end keeper

namespace keeper

/-- Every outcome of `queryToContract` that carries a state carries the caller's gas
meter, untouched. -/
theorem queryToContract_meter (k : Keeper) (contractAddr : sdk.AccAddress) (key : Bytes)
    (s s1 : State)
    (h : (∃ a, queryToContract k contractAddr key s = .ret s1 a) ∨
      (∃ p, queryToContract k contractAddr key s = .panic s1 p)) :
    s1.ctx.gas = s.ctx.gas := by
  unfold queryToContract at h
  generalize getContractDetailsMetered k { limit := k.queryGasLimit, consumed := 0 }
    s.ctx.store contractAddr = d at h
  obtain ⟨meter1, d2⟩ := d
  cases d2 with
  | panicked p0 =>
    rcases h with ⟨a, h⟩ | ⟨p, h⟩
    · simp at h
    · simp only [Res.panic.injEq] at h
      rw [← h.1]
  | failed err =>
    rcases h with ⟨a, h⟩ | ⟨p, h⟩
    · simp only [Res.ret.injEq] at h
      rw [← h.1]
    · simp at h
  | found codeInfo view =>
    simp only at h
    split at h
    · rcases h with ⟨a, h⟩ | ⟨p, h⟩
      · simp at h
      · simp only [Res.panic.injEq] at h
        rw [← h.1]
    · split at h
      · rcases h with ⟨a, h⟩ | ⟨p, h⟩
        · simp only [Res.ret.injEq] at h
          rw [← h.1]
        · simp at h
      · split at h
        · rcases h with ⟨a, h⟩ | ⟨p, h⟩
          · simp at h
          · simp only [Res.panic.injEq] at h
            rw [← h.1]
        · rcases h with ⟨a, h⟩ | ⟨p, h⟩
          · simp at h
          · simp at h
        · rcases h with ⟨a, h⟩ | ⟨p, h⟩
          · simp only [Res.ret.injEq] at h
            rw [← h.1]
          · simp at h

/-- C19, as the claim states it, fails: the budget is computed from the query's meter
after `getContractDetails` has charged its two reads of the store to it.  Here the query
gas limit is 5000 and the rate 100; the two reads cost 2075, so the VM is invoked with
budget (5000 - 2075) * 100 = 292500, where the minimum of the product of the limit and
the rate and the ceiling is 500000. -/
theorem queryToContract_budget_after_reads :
    queryToContract demo.keeper demo.c1 [9] demo.state =
        .ret
          { ctx :=
              { bank := demo.state.ctx.bank
                store := writeContractStore demo.state.ctx.store demo.c1 []
                gas := demo.state.ctx.gas }
            trace := [Event.wasmerQuery [1] [9] 292500, Event.consumeGas 3] }
          (.ok [9]) ∧
      min (demo.keeper.queryGasLimit * demo.keeper.GasMultiplier) demo.keeper.MaxContractGas =
        500000 :=
  ⟨rfl, by decide⟩

/-- C19, amended: for a `queryToContract` call on an existing contract whose two record
reads the query gas limit pays for, `getContractDetails` leaves the charge `readGas` of
those reads on the query's fresh meter, and the VM is invoked with the budget
min(((queryGasLimit - readGas) * rate) mod 2^64, maxContractGas), the exact product
whenever that is below 2^64: no part of it is read from the caller's gas meter.  The
accesses of the VM to the store view and then the gas it reports, divided by the rate,
are charged to the same fresh meter; the call panics when one of these charges does and
returns the query result otherwise.  In every outcome the state carries the caller's gas
meter unchanged. -/
theorem queryToContract_own_gas (k : Keeper) (contractAddr : sdk.AccAddress) (key : Bytes)
    (s : State) (contractInfo : types.ContractInfo) (codeInfo : types.CodeInfo)
    (hq : k.queryGasLimit < uint64Size)
    (hcontract : s.ctx.store.contractInfo.lookup contractAddr = some contractInfo)
    (hcode : s.ctx.store.codeInfo.lookup contractInfo.CodeID = some codeInfo)
    (hreads : detailsReadGas k contractInfo codeInfo ≤ k.queryGasLimit) :
    (getContractDetailsMetered k { limit := k.queryGasLimit, consumed := 0 } s.ctx.store
        contractAddr =
      ({ limit := k.queryGasLimit, consumed := detailsReadGas k contractInfo codeInfo },
        .found codeInfo (contractStoreView s.ctx.store contractAddr))) ∧
    (gasForContract k
        { s.ctx with
          gas :=
            { limit := k.queryGasLimit, consumed := detailsReadGas k contractInfo codeInfo } } =
      min (((k.queryGasLimit - detailsReadGas k contractInfo codeInfo) * k.GasMultiplier) %
        uint64Size) k.MaxContractGas) ∧
    ((k.queryGasLimit - detailsReadGas k contractInfo codeInfo) * k.GasMultiplier <
        uint64Size →
      gasForContract k
          { s.ctx with
            gas :=
              { limit := k.queryGasLimit,
                consumed := detailsReadGas k contractInfo codeInfo } } =
        min ((k.queryGasLimit - detailsReadGas k contractInfo codeInfo) * k.GasMultiplier)
          k.MaxContractGas) ∧
    (∀ (ops : List StoreOp) (queryResult : Bytes) (gasUsed : Nat),
      0 < k.GasMultiplier →
      k.wasmerQuery codeInfo.CodeHash key (contractStoreView s.ctx.store contractAddr)
          (min (((k.queryGasLimit - detailsReadGas k contractInfo codeInfo) *
            k.GasMultiplier) % uint64Size) k.MaxContractGas) =
        (ops, .ok (queryResult, gasUsed)) →
      queryToContract k contractAddr key s =
        match (runOps
            { limit := k.queryGasLimit, consumed := detailsReadGas k contractInfo codeInfo }
            (contractStoreView s.ctx.store contractAddr) ops).2.2 with
        | some p =>
          .panic
            { ctx :=
                { bank := s.ctx.bank
                  store :=
                    writeContractStore s.ctx.store contractAddr
                      (runOps
                        { limit := k.queryGasLimit,
                          consumed := detailsReadGas k contractInfo codeInfo }
                        (contractStoreView s.ctx.store contractAddr) ops).2.1
                  gas := s.ctx.gas }
              trace := s.trace ++
                [Event.wasmerQuery codeInfo.CodeHash key
                   (min (((k.queryGasLimit - detailsReadGas k contractInfo codeInfo) *
                     k.GasMultiplier) % uint64Size) k.MaxContractGas)] }
            p
        | none =>
          match (ConsumeGas
              (runOps
                { limit := k.queryGasLimit,
                  consumed := detailsReadGas k contractInfo codeInfo }
                (contractStoreView s.ctx.store contractAddr) ops).1
              (gasUsed / k.GasMultiplier)).2 with
          | some p =>
            .panic
              { ctx :=
                  { bank := s.ctx.bank
                    store :=
                      writeContractStore s.ctx.store contractAddr
                        (runOps
                          { limit := k.queryGasLimit,
                            consumed := detailsReadGas k contractInfo codeInfo }
                          (contractStoreView s.ctx.store contractAddr) ops).2.1
                    gas := s.ctx.gas }
                trace := s.trace ++
                  [Event.wasmerQuery codeInfo.CodeHash key
                     (min (((k.queryGasLimit - detailsReadGas k contractInfo codeInfo) *
                       k.GasMultiplier) % uint64Size) k.MaxContractGas),
                   Event.consumeGas (gasUsed / k.GasMultiplier)] }
              p
          | none =>
            .ret
              { ctx :=
                  { bank := s.ctx.bank
                    store :=
                      writeContractStore s.ctx.store contractAddr
                        (runOps
                          { limit := k.queryGasLimit,
                            consumed := detailsReadGas k contractInfo codeInfo }
                          (contractStoreView s.ctx.store contractAddr) ops).2.1
                    gas := s.ctx.gas }
                trace := s.trace ++
                  [Event.wasmerQuery codeInfo.CodeHash key
                     (min (((k.queryGasLimit - detailsReadGas k contractInfo codeInfo) *
                       k.GasMultiplier) % uint64Size) k.MaxContractGas),
                   Event.consumeGas (gasUsed / k.GasMultiplier)] }
              (.ok queryResult)) ∧
    (∀ s1 : State,
      ((∃ a, queryToContract k contractAddr key s = .ret s1 a) ∨
        (∃ p, queryToContract k contractAddr key s = .panic s1 p)) →
      s1.ctx.gas = s.ctx.gas) := by
  have hd := getContractDetailsMetered_found k s.ctx.store contractAddr k.queryGasLimit
    contractInfo codeInfo hq hcontract hcode hreads
  have hbudget := gasForContract_eq k
    { s.ctx with
      gas := { limit := k.queryGasLimit, consumed := detailsReadGas k contractInfo codeInfo } }
    hq hreads
  simp only at hbudget
  refine ⟨hd, hbudget, fun hlt => by rw [hbudget, Nat.mod_eq_of_lt hlt], ?_,
    fun s1 h => queryToContract_meter k contractAddr key s s1 h⟩
  intro ops queryResult gasUsed hr hvm
  rw [← hbudget] at hvm ⊢
  unfold queryToContract
  rw [hd]
  simp only [hvm, consumeGas_eq k hr]
  cases hrun : (runOps
      { limit := k.queryGasLimit, consumed := detailsReadGas k contractInfo codeInfo }
      (contractStoreView s.ctx.store contractAddr) ops).2.2 with
  | some p => rfl
  | none =>
    simp only
    cases hc : (ConsumeGas
        (runOps
          { limit := k.queryGasLimit, consumed := detailsReadGas k contractInfo codeInfo }
          (contractStoreView s.ctx.store contractAddr) ops).1
        (gasUsed / k.GasMultiplier)).2 with
    | some p => simp only [List.append_assoc, List.singleton_append]
    | none => simp only [List.append_assoc, List.singleton_append]

/-- C19 amended, at a concrete input: a query of the first contract with limit 5000 and
rate 100.  The two reads of the records cost 2075, the budget of the VM is 292500; the
read of the VM costs 1000 and the 300 gas it reports 3, all within the limit, so the call
returns, with the caller's meter as it was. -/
theorem queryToContract_own_gas_witness :
    detailsReadGas demo.keeper ⟨1, demo.c1, demo.alice, []⟩ ⟨[1], demo.alice⟩ = 2075 ∧
    (getContractDetailsMetered demo.keeper { limit := 5000, consumed := 0 }
        demo.state.ctx.store demo.c1 =
      ({ limit := 5000, consumed := 2075 }, .found ⟨[1], demo.alice⟩ [])) ∧
    gasForContract demo.keeper
        { demo.state.ctx with gas := { limit := 5000, consumed := 2075 } } =
      min (((5000 - 2075) * 100) % uint64Size) 900000 ∧
    queryToContract demo.keeper demo.c1 [9] demo.state =
      .ret
        { ctx :=
            { bank := demo.state.ctx.bank
              store := writeContractStore demo.state.ctx.store demo.c1 []
              gas := demo.state.ctx.gas }
          trace := [Event.wasmerQuery [1] [9] 292500, Event.consumeGas 3] }
        (.ok [9]) :=
  ⟨by decide,
   (queryToContract_own_gas demo.keeper demo.c1 [9] demo.state ⟨1, demo.c1, demo.alice, []⟩
      ⟨[1], demo.alice⟩ (by decide) (by decide) (by decide) (by decide)).1,
   (queryToContract_own_gas demo.keeper demo.c1 [9] demo.state ⟨1, demo.c1, demo.alice, []⟩
      ⟨[1], demo.alice⟩ (by decide) (by decide) (by decide) (by decide)).2.1,
   (queryToContract_own_gas demo.keeper demo.c1 [9] demo.state ⟨1, demo.c1, demo.alice, []⟩
      ⟨[1], demo.alice⟩ (by decide) (by decide) (by decide) (by decide)).2.2.2.1
      [StoreOp.Get [9]] [9] 300 (by decide) rfl⟩

/-- An `InstantiateContract` call that returns without error leaves, under the address it
returns, the contract record of its arguments. -/
theorem InstantiateContractWith_ok_record (k : Keeper) (exec : Exec)
    (creator : sdk.AccAddress) (codeID : Nat) (initMsg : Bytes) (deposit : sdk.Coins)
    (s s1 : State) (addr : sdk.AccAddress)
    (h : InstantiateContractWith k exec creator codeID initMsg deposit s = .ret s1 (addr, none)) :
    s1.ctx.store.contractInfo.lookup addr =
      some (types.NewContractInfo codeID addr creator initMsg) := by
  unfold InstantiateContractWith at h
  simp only at h
  split at h
  · simp at h
  · split at h
    · simp at h
    · split at h
      · simp at h
      · split at h
        · simp at h
        · split at h
          · simp at h
          · simp at h
          · split at h
            · simp at h
            · simp at h
            · simp at h
            · simp only [Res.ret.injEq, Prod.mk.injEq, and_true] at h
              rw [← h.1, ← h.2]
              simp [SetContractInfo, List.lookup]

/-- The concrete keeper's handler changes balances only: it keeps the records. -/
theorem demo_handlers_keep_records : HandlersKeepRecords demo.keeper := by
  intro route h hr msg ctx
  simp only [demo.keeper] at hr
  split at hr
  · simp only [Option.some.injEq] at hr
    subst hr
    unfold demo.bankHandler
    split <;> rfl
  · simp at hr

/-- The concrete keeper's handler changes balances only: it never refunds gas. -/
theorem demo_handlers_never_refund : HandlersNeverRefund demo.keeper := by
  intro route h hr msg ctx
  simp only [demo.keeper] at hr
  split at hr
  · simp only [Option.some.injEq] at hr
    subst hr
    unfold demo.bankHandler
    split <;> exact ⟨rfl, le_refl _⟩
  · simp at hr

/-- C20: provided no registered handler changes the records of the store (the VM writes
only through the view it is handed, by the type of `wasmerExecute`), an `ExecuteContract`
call, nested calls included and whatever the bound on nesting, leaves every contract
record, every code record and both id counters as they were, whether it returns without
error, returns an error, or panics.  In particular, executing a contract in the state in
which its instantiation returned leaves under its address the record of that
instantiation. -/
theorem ExecuteContract_keeps_records (k : Keeper) (hk : HandlersKeepRecords k) (fuel : Nat)
    (contractAddress caller : sdk.AccAddress) (coins : sdk.Coins) (msg : Bytes) (s : State) :
    (∀ (s1 : State),
      ((∃ e, ExecuteContract k fuel contractAddress caller coins msg s = .ret s1 e) ∨
        (∃ p, ExecuteContract k fuel contractAddress caller coins msg s = .panic s1 p)) →
      s1.ctx.store.contractInfo = s.ctx.store.contractInfo ∧
        s1.ctx.store.codeInfo = s.ctx.store.codeInfo ∧
        s1.ctx.store.lastCodeID = s.ctx.store.lastCodeID ∧
        s1.ctx.store.lastInstanceID = s.ctx.store.lastInstanceID) ∧
    (∀ (fuel0 : Nat) (creator : sdk.AccAddress) (codeID : Nat) (initMsg : Bytes)
        (deposit : sdk.Coins) (s0 s1 : State) (e : Option sdk.Error),
      InstantiateContract k fuel0 creator codeID initMsg deposit s0 =
        .ret s (contractAddress, none) →
      ExecuteContract k fuel contractAddress caller coins msg s = .ret s1 e →
      s1.ctx.store.contractInfo.lookup contractAddress =
        some { CodeID := codeID, Address := contractAddress, Creator := creator,
               InitMsg := initMsg }) := by
  have hkeep := ExecuteContractWith_keeps (records_invariant k hk) (nestedExecute k fuel)
    (nestedExecute_keeps (records_invariant k hk) fuel) contractAddress caller coins msg s
  have hmain : ∀ (s1 : State),
      ((∃ e, ExecuteContract k fuel contractAddress caller coins msg s = .ret s1 e) ∨
        (∃ p, ExecuteContract k fuel contractAddress caller coins msg s = .panic s1 p)) →
      records s1.ctx.store = records s.ctx.store := by
    intro s1 h
    unfold ExecuteContract at h
    rcases h with ⟨e, h⟩ | ⟨p, h⟩
    · rw [h] at hkeep
      exact hkeep
    · rw [h] at hkeep
      exact hkeep trivial
  constructor
  · intro s1 h
    have hr := hmain s1 h
    simp only [records, Prod.mk.injEq] at hr
    exact ⟨hr.2.2.2, hr.2.2.1, hr.1, hr.2.1⟩
  · intro fuel0 creator codeID initMsg deposit s0 s1 e hinst hexec
    have hr := hmain s1 (Or.inl ⟨e, hexec⟩)
    simp only [records, Prod.mk.injEq] at hr
    rw [hr.2.2.2]
    exact InstantiateContractWith_ok_record k (nestedExecute k fuel0) creator codeID initMsg
      deposit s0 s contractAddress hinst

end keeper

namespace keeper

/-! ## The theorems above at concrete inputs -/

/-- C11, at concrete inputs: alice instantiates code 1, and the record is stored under
the derived address; alice instantiates code 3, whose init emits a contract call, the
dispatch returns an error, and the contract records are those of the input state. -/
theorem InstantiateContract_persists_record_witness :
    (∃ s1 : State,
      InstantiateContract demo.keeper 0 demo.alice 1 [1, 2] [⟨"uluna", 7⟩] demo.state =
        .ret s1 (demo.newAddr, none) ∧
      s1.ctx.store.contractInfo.lookup demo.newAddr =
        some { CodeID := 1, Address := demo.newAddr, Creator := demo.alice, InitMsg := [1, 2] }) ∧
    (∃ s1 : State,
      InstantiateContract demo.keeper 1 demo.alice 3 [1, 2] [⟨"uluna", 7⟩] demo.state =
        .ret s1 (demo.newAddr, some (sdk.Error.ErrInternal "Unknown Msg: wasmTypes.CosmosMsg")) ∧
      s1.ctx.store.contractInfo = demo.state.ctx.store.contractInfo) :=
  ⟨⟨_, (InstantiateContract_persists_record demo.keeper).1 0 demo.alice 1 [1, 2]
      [⟨"uluna", 7⟩] demo.state _ _ _ _ _ _ _ _ rfl rfl rfl rfl rfl rfl rfl⟩,
   ⟨_, rfl, (InstantiateContract_persists_record demo.keeper).2 demo_handlers_keep_records 1
      demo.alice 3 [1, 2] [⟨"uluna", 7⟩] demo.state _ demo.newAddr _ rfl⟩⟩

/-- C13, at concrete inputs: alice instantiates code 9, which has no record, and code 2,
whose init fails; both times the derived address keeps the 7 uluna deposited. -/
theorem InstantiateContract_keeps_deposit_witness :
    (InstantiateContract demo.keeper 0 demo.alice 9 [] [⟨"uluna", 7⟩] demo.state =
        .ret
          { ctx :=
              { bank := ⟨demo.newAddr, [⟨"uluna", 7⟩]⟩ :: demo.state.ctx.bank
                store := { demo.state.ctx.store with lastInstanceID := some 4 }
                gas := demo.state.ctx.gas }
            trace := [Event.sendCoins demo.alice demo.newAddr [⟨"uluna", 7⟩]] }
          (demo.newAddr, some (sdk.Error.ErrNotFound "contract")) ∧
      ({ demo.state.ctx.store with lastInstanceID := some 4 } : WasmStore).contractInfo.lookup
        demo.newAddr = none) ∧
    (InstantiateContract demo.keeper 0 demo.alice 2 [] [⟨"uluna", 7⟩] demo.state =
        .ret
          { ctx :=
              { bank := ⟨demo.newAddr, [⟨"uluna", 7⟩]⟩ :: demo.state.ctx.bank
                store := writeContractStore
                  { demo.state.ctx.store with lastInstanceID := some 4 } demo.newAddr []
                gas := demo.state.ctx.gas }
            trace :=
              [Event.sendCoins demo.alice demo.newAddr [⟨"uluna", 7⟩],
               Event.wasmerInstantiate [2]
                 (types.NewWasmAPIParams demo.alice [⟨"uluna", 7⟩]
                   (some ⟨demo.newAddr, [⟨"uluna", 7⟩]⟩)) [] 100000] }
          (demo.newAddr, some (sdk.Error.ErrInstantiateFailed "vm failed")) ∧
      (writeContractStore { demo.state.ctx.store with lastInstanceID := some 4 }
        demo.newAddr []).contractInfo.lookup demo.newAddr = none) :=
  ⟨(InstantiateContract_keeps_deposit demo.keeper 0 demo.alice 9 [] [⟨"uluna", 7⟩] demo.state
      { demo.state.ctx.store with lastInstanceID := some 4 } demo.newAddr
      (⟨demo.newAddr, [⟨"uluna", 7⟩]⟩ :: demo.state.ctx.bank) rfl (by decide) (by decide)
      (by decide)).1 (by decide),
   (InstantiateContract_keeps_deposit demo.keeper 0 demo.alice 2 [] [⟨"uluna", 7⟩] demo.state
      { demo.state.ctx.store with lastInstanceID := some 4 } demo.newAddr
      (⟨demo.newAddr, [⟨"uluna", 7⟩]⟩ :: demo.state.ctx.bank) rfl (by decide) (by decide)
      (by decide)).2 ⟨[2], demo.alice⟩ [] "vm failed" (by decide) rfl⟩

/-- C16, at concrete inputs: alice instantiates code 3; its init reports 520 gas used,
which the rate 100 turns into a charge of 5; the dispatch of the emitted contract call
then returns an error, and the meter still shows the 5 consumed. -/
theorem consumeGas_before_dispatch_witness :
    ∃ s1 : State,
      InstantiateContract demo.keeper 1 demo.alice 3 [1, 2] [⟨"uluna", 7⟩] demo.state =
        .ret s1 (demo.newAddr, some (sdk.Error.ErrInternal "Unknown Msg: wasmTypes.CosmosMsg")) ∧
      s1.ctx.gas = { limit := 1000, consumed := 5 } ∧
      (ConsumeGas demo.state.ctx.gas 5).1 = { limit := 1000, consumed := 0 + 5 } :=
  ⟨_, (consumeGas_before_dispatch demo.keeper (by decide)).2.1 1 demo.alice 3 [1, 2]
      [⟨"uluna", 7⟩] demo.state _ _ _ _ _ _ rfl rfl rfl rfl rfl, rfl,
    (consumeGas_before_dispatch demo.keeper (by decide)).2.2.1 demo.state.ctx.gas 5
      (by decide)⟩

/-- C20, at concrete inputs: bob executes the contract alice instantiated from code 1;
the call returns, the records are those left by the instantiation, and the record under
the contract's address is the one the instantiation wrote. -/
theorem ExecuteContract_keeps_records_witness :
    ∃ (s1 : State) (e : Option sdk.Error),
      ExecuteContract demo.keeper 1 demo.newAddr demo.bob [] [123, 125] demo.instantiated =
        .ret s1 e ∧
      (s1.ctx.store.contractInfo = demo.instantiated.ctx.store.contractInfo ∧
        s1.ctx.store.codeInfo = demo.instantiated.ctx.store.codeInfo ∧
        s1.ctx.store.lastCodeID = demo.instantiated.ctx.store.lastCodeID ∧
        s1.ctx.store.lastInstanceID = demo.instantiated.ctx.store.lastInstanceID) ∧
      s1.ctx.store.contractInfo.lookup demo.newAddr =
        some { CodeID := 1, Address := demo.newAddr, Creator := demo.alice, InitMsg := [1, 2] } :=
  ⟨_, _, rfl,
    (ExecuteContract_keeps_records demo.keeper demo_handlers_keep_records 1 demo.newAddr
      demo.bob [] [123, 125] demo.instantiated).1 _ (Or.inl ⟨_, rfl⟩),
    (ExecuteContract_keeps_records demo.keeper demo_handlers_keep_records 1 demo.newAddr
      demo.bob [] [123, 125] demo.instantiated).2 0 demo.alice 1 [1, 2] [⟨"uluna", 7⟩]
      demo.state _ _ rfl rfl⟩

end keeper

namespace keeper

/-! ## The charge against the remaining gas -/

/-- C21: for a meter with 64-bit limit `L` and consumed gas `C ≤ L`, a positive rate `r`,
any ceiling, and a VM gas usage `g` no larger than the budget `gasForContract` returns,
the amount `consumeGas` charges, `g / r` rounded down, is at most the remaining gas
`L - C`, so the charge goes through: `consumeGas` returns with `C + g / r` consumed,
within the limit.  Nothing is assumed about the product `(L - C) * r`: the bound holds
when it wraps in 64 bits as well. -/
theorem consumeGas_within_remaining (k : Keeper) (s : State) (g : Nat)
    (hL : s.ctx.gas.limit < uint64Size) (hC : s.ctx.gas.consumed ≤ s.ctx.gas.limit)
    (hr : 0 < k.GasMultiplier) (hg : g ≤ gasForContract k s.ctx) :
    g / k.GasMultiplier ≤ s.ctx.gas.limit - s.ctx.gas.consumed ∧
    s.ctx.gas.consumed + g / k.GasMultiplier ≤ s.ctx.gas.limit ∧
    consumeGas k g s =
      .ret
        { ctx :=
            { s.ctx with
              gas :=
                { limit := s.ctx.gas.limit
                  consumed := s.ctx.gas.consumed + g / k.GasMultiplier } }
          trace := s.trace ++ [Event.consumeGas (g / k.GasMultiplier)] }
        () := by
  have hbudget := gasForContract_eq k s.ctx hL hC
  have h1 : g ≤ (s.ctx.gas.limit - s.ctx.gas.consumed) * k.GasMultiplier := by
    calc g ≤ gasForContract k s.ctx := hg
      _ ≤ ((s.ctx.gas.limit - s.ctx.gas.consumed) * k.GasMultiplier) % uint64Size := by
        rw [hbudget]
        exact Nat.min_le_left _ _
      _ ≤ (s.ctx.gas.limit - s.ctx.gas.consumed) * k.GasMultiplier := Nat.mod_le _ _
  have h2 : g / k.GasMultiplier ≤ s.ctx.gas.limit - s.ctx.gas.consumed := by
    calc g / k.GasMultiplier
        ≤ (s.ctx.gas.limit - s.ctx.gas.consumed) * k.GasMultiplier / k.GasMultiplier :=
          Nat.div_le_div_right h1
      _ = s.ctx.gas.limit - s.ctx.gas.consumed := Nat.mul_div_cancel _ hr
  have h3 : s.ctx.gas.consumed + g / k.GasMultiplier ≤ s.ctx.gas.limit := by omega
  refine ⟨h2, h3, ?_⟩
  rw [consumeGas_eq k hr]
  unfold ConsumeGas
  rw [if_neg (by omega), if_neg (by omega)]

/-- C21, at a concrete input where the product wraps: 2^63 + 5 gas remain and the rate is
2, so the 64-bit product is 10 and the budget is 10; a VM that uses all 10 is charged 5. -/
theorem consumeGas_within_remaining_witness :
    (18446744073709551616 ≤ (9223372036854775813 - 0) * demo.doublingKeeper.GasMultiplier ∧
      gasForContract demo.doublingKeeper demo.richCtx = 10) ∧
    (10 / 2 ≤ 9223372036854775813 - 0 ∧
      0 + 10 / 2 ≤ 9223372036854775813 ∧
      consumeGas demo.doublingKeeper 10 { ctx := demo.richCtx, trace := [] } =
        .ret
          { ctx :=
              { demo.richCtx with
                gas := { limit := 9223372036854775813, consumed := 0 + 10 / 2 } }
            trace := [] ++ [Event.consumeGas (10 / 2)] }
          ()) :=
  ⟨by decide,
   consumeGas_within_remaining demo.doublingKeeper { ctx := demo.richCtx, trace := [] } 10
     (by decide) (by decide) (by decide) (by decide)⟩

end keeper

namespace rest

/-! ## The broadcast filter -/

/-- The loop over the messages reaches the `SCAMMER` return exactly when some message is a
bank send from the blocked address to an address other than the allowed one. -/
theorem scanMsgs_iff (block allow : sdk.AccAddress) (msgs : List Msg) :
    scanMsgs block allow msgs = true ↔
      ∃ m : bank.MsgSend, Msg.MsgSend m ∈ msgs ∧ m.FromAddress = block ∧ m.ToAddress ≠ allow := by
  induction msgs with
  | nil => simp [scanMsgs]
  | cons x rest ih =>
    cases x with
    | other route data =>
      simp only [scanMsgs, ih, List.mem_cons, false_or, reduceCtorEq]
    | MsgSend msg =>
      simp only [scanMsgs, sdk.AccAddress.Equals, List.mem_cons, Msg.MsgSend.injEq]
      by_cases hf : msg.FromAddress = block
      · by_cases ht : msg.ToAddress = allow
        · simp only [hf, ht, decide_True, Bool.not_true, if_true, Bool.false_eq_true, if_false, ih]
          constructor
          · rintro ⟨m, hm, h1, h2⟩
            exact ⟨m, Or.inr hm, h1, h2⟩
          · rintro ⟨m, hm | hm, h1, h2⟩
            · rw [hm] at h2
              exact absurd ht h2
            · exact ⟨m, hm, h1, h2⟩
        · simp only [hf, ht, decide_True, decide_False, Bool.not_false, if_true, true_iff]
          exact ⟨msg, Or.inl rfl, hf, ht⟩
      · simp only [hf, decide_False, Bool.false_eq_true, if_false, ih]
        constructor
        · rintro ⟨m, hm, h1, h2⟩
          exact ⟨m, Or.inr hm, h1, h2⟩
        · rintro ⟨m, hm | hm, h1, h2⟩
          · rw [hm] at h1
            exact absurd h1 hf
          · exact ⟨m, hm, h1, h2⟩

/-- C22: for a request whose body is read and decodes to `req`, the handler ends at the
`SCAMMER` return, which writes the error "SCAMMER" with status 500 and comes before any
call of `BroadcastTx`, exactly when the messages of the transaction contain a bank send
whose sender equals the blocked address and whose recipient differs from the allowed
address.  Every other decoded transaction goes on to the encoding of `req.Tx` as decoded,
and the encoded bytes are handed to `BroadcastTx` under the mode of the request. -/
theorem BroadcastTxRequest_filter (cliCtx : CLIContext) (body : Bytes) (req : BroadcastReq)
    (hdecode : cliCtx.UnmarshalJSON body = .ok req) :
    (BroadcastTxRequest cliCtx (.ok body) = .scammer ↔
      ∃ m : bank.MsgSend, Msg.MsgSend m ∈ req.Tx.Msgs ∧
        m.FromAddress = blockAddress cliCtx ∧ m.ToAddress ≠ allowAddress cliCtx) ∧
    Outcome.scammer.response = .error 500 "SCAMMER" ∧
    Outcome.scammer.broadcast = none ∧
    ((¬ ∃ m : bank.MsgSend, Msg.MsgSend m ∈ req.Tx.Msgs ∧
          m.FromAddress = blockAddress cliCtx ∧ m.ToAddress ≠ allowAddress cliCtx) →
      BroadcastTxRequest cliCtx (.ok body) =
        match cliCtx.MarshalBinaryLengthPrefixed req.Tx with
        | .error err => .encodeError err
        | .ok txBytes =>
          match cliCtx.BroadcastTx req.Mode txBytes with
          | .error err => .broadcastError req.Mode txBytes err
          | .ok res => .posted req.Mode txBytes res) := by
  have hscan := scanMsgs_iff (blockAddress cliCtx) (allowAddress cliCtx) req.Tx.Msgs
  refine ⟨?_, rfl, rfl, ?_⟩
  · rw [← hscan]
    unfold BroadcastTxRequest
    simp only [hdecode]
    by_cases hs : scanMsgs (blockAddress cliCtx) (allowAddress cliCtx) req.Tx.Msgs = true
    · simp only [hs, if_true]
    · simp only [hs, Bool.false_eq_true, if_false, iff_false]
      cases cliCtx.MarshalBinaryLengthPrefixed req.Tx with
      | error err => simp
      | ok txBytes =>
        simp only
        cases cliCtx.BroadcastTx req.Mode txBytes <;> simp
  · intro hno
    rw [← hscan] at hno
    unfold BroadcastTxRequest
    simp only [hdecode, hno, Bool.false_eq_true, if_false]

/-- C22, at concrete inputs: a transaction with a send from the blocked address to bob is
rejected; a transaction whose send from the blocked address goes to the allowed address
is encoded and broadcast under its mode. -/
theorem BroadcastTxRequest_filter_witness :
    BroadcastTxRequest demo.cliCtx (.ok [1]) = .scammer ∧
    BroadcastTxRequest demo.cliCtx (.ok [2]) = .posted "sync" [2] "accepted" :=
  ⟨(BroadcastTxRequest_filter demo.cliCtx [1] demo.stolen rfl).1.2
      ⟨⟨demo.blocked, keeper.demo.bob, [⟨"uluna", 5⟩]⟩, by decide, by decide, by decide⟩,
   (BroadcastTxRequest_filter demo.cliCtx [2] demo.returned rfl).2.2.2
      (fun h => absurd
        ((scanMsgs_iff (blockAddress demo.cliCtx) (allowAddress demo.cliCtx)
          demo.returned.Tx.Msgs).2 h) (by decide))⟩

end rest
